import Mathlib

/-!
A shallow embedding of the Flux compiler (`src/Compiler/Rust/Flux.rs`) in Lean 4,
together with theorems settling the specification claims about it.

Conventions of the embedding:
* Rust `f64` payloads are modelled by `Flux.FNum`, an exact rational kept in
  normalized form (sign on the numerator, denominator positive, fraction reduced).
  All values produced by the embedded code (literal parsing, constant folding)
  go through the normalizing smart constructor, so structural equality of `FNum`
  coincides with value equality, mirroring `f64` value comparison for the
  decimal/arithmetic values that actually arise here.
* Mutable `self` state (`Lexer`, `SemanticAnalyzer`, `CodeGenerator`, ...) is
  passed explicitly; a Rust method mutating `self` becomes a function returning
  the updated state.
* `HashMap` fields are modelled as association lists; the source never iterates
  over a map, so only `get`/`insert`/`contains_key` behaviour matters.
* `eprintln!` diagnostics of the lexer are collected in a `diagnostics` field
  standing for the stderr stream.
* Loops whose termination is by progress through the input are given explicit
  fuel where noted; the chosen fuel is large enough for every input, and no
  theorem below depends on the particular fuel value except through the stated
  definitions.
-/

namespace Flux

/-- Exact-rational model of Rust `f64`.  Kept normalized: `den > 0` and
`num.natAbs` coprime to `den` for every value built by `FNum.norm` (all
arithmetic below goes through it). -/
structure FNum where
  num : Int
  den : Nat
deriving DecidableEq, Repr

/-- Normalizing constructor: sign moved to the numerator, fraction reduced.
`d = 0` cannot arise from the embedded code (denominators are products of
powers of ten, or of denominators of normalized values with a nonzero check
before division). -/
def FNum.norm (n d : Int) : FNum :=
  if d = 0 then ⟨0, 0⟩
  else
    let s : Int := if d < 0 then -1 else 1
    let n' := s * n
    let d' := (s * d).toNat
    let g := n'.natAbs.gcd d'
    ⟨n' / (g : Int), d' / g⟩

instance (n : Nat) : OfNat FNum n := ⟨⟨n, 1⟩⟩

/-- Model of `l + r` on `f64` (exact in this embedding). -/
def FNum.add (a b : FNum) : FNum := FNum.norm (a.num * b.den + b.num * a.den) (a.den * b.den)

/-- Model of `l - r` on `f64`. -/
def FNum.sub (a b : FNum) : FNum := FNum.norm (a.num * b.den - b.num * a.den) (a.den * b.den)

/-- Model of `l * r` on `f64`. -/
def FNum.mul (a b : FNum) : FNum := FNum.norm (a.num * b.num) (a.den * b.den)

/-- Model of `l / r` on `f64`; only reached with `b ≠ 0` in the optimizer. -/
def FNum.div (a b : FNum) : FNum := FNum.norm (a.num * b.den) (a.den * b.num)

/-- Model of unary `-n` on `f64`.  Negation preserves normalization. -/
def FNum.neg (a : FNum) : FNum := ⟨-a.num, a.den⟩

/-- Decimal digits of the fractional part `r / d` (long division), with fuel.
Rust's `Display` prints the shortest decimal form; for the decimal-valued
numbers produced by this compiler the expansion below is that form. -/
def fracDigits : Nat → Nat → Nat → String
  | 0, _, _ => ""
  | _, 0, _ => ""
  | fuel + 1, r, d =>
    let r10 := r * 10
    toString (r10 / d) ++ fracDigits fuel (r10 % d) d

/-- Model of Rust `format!("{}", x)` for `x : f64` (e.g. `14.0 ↦ "14"`,
`0.5 ↦ "0.5"`). -/
def FNum.toDisplay (q : FNum) : String :=
  let sgn := if q.num < 0 then "-" else ""
  let na := q.num.natAbs
  if q.den = 0 then "NaN"
  else if na % q.den = 0 then sgn ++ toString (na / q.den)
  else sgn ++ toString (na / q.den) ++ "." ++ fracDigits 40 (na % q.den) q.den

/-- Model of Rust `format!("{:?}", x)` for `x : f64` (e.g. `42.0 ↦ "42.0"`). -/
def FNum.toDebug (q : FNum) : String :=
  let sgn := if q.num < 0 then "-" else ""
  let na := q.num.natAbs
  if q.den = 0 then "NaN"
  else if na % q.den = 0 then sgn ++ toString (na / q.den) ++ ".0"
  else sgn ++ toString (na / q.den) ++ "." ++ fracDigits 40 (na % q.den) q.den

set_option maxHeartbeats 2000000 in
/-- `TokenType` from the source, with `f64` payloads as `FNum`. -/
inductive TokenType where
  | Number (n : FNum)
  | String (s : String)
  | Boolean (b : Bool)
  | Identifier (s : String)
  | Let | Const | Func | Return | If | Else | While | For
  | Class | Extends | New | This | Super
  | Import | Export | Match | Case | Default
  | Temporal | Freeze | Thaw | Timeline
  | Plus | Minus | Multiply | Divide | Modulo
  | Assign | Equal | NotEqual | Less | Greater
  | LessEqual | GreaterEqual | And | Or | Not
  | Arrow | FatArrow | Pipe | Compose
  | LeftParen | RightParen | LeftBrace | RightBrace
  | LeftBracket | RightBracket | Comma | Semicolon
  | Colon | Dot | Question | Bang
  | Newline | Indent | Dedent | EOF
  | Pragma (s : String)
deriving Repr

/-- Constructor tag and payloads of a token.  Injective (witnessed by
`tokDecode` below); exists only so that decidable equality of
`TokenType` avoids a quadratic constructor case split. -/
def tokEncode : TokenType → Nat × FNum × String × Bool
  | .Number n => (0, n, "", false)
  | .String s => (1, FNum.mk 0 1, s, false)
  | .Boolean b => (2, FNum.mk 0 1, "", b)
  | .Identifier s => (3, FNum.mk 0 1, s, false)
  | .Let => (4, FNum.mk 0 1, "", false)
  | .Const => (5, FNum.mk 0 1, "", false)
  | .Func => (6, FNum.mk 0 1, "", false)
  | .Return => (7, FNum.mk 0 1, "", false)
  | .If => (8, FNum.mk 0 1, "", false)
  | .Else => (9, FNum.mk 0 1, "", false)
  | .While => (10, FNum.mk 0 1, "", false)
  | .For => (11, FNum.mk 0 1, "", false)
  | .Class => (12, FNum.mk 0 1, "", false)
  | .Extends => (13, FNum.mk 0 1, "", false)
  | .New => (14, FNum.mk 0 1, "", false)
  | .This => (15, FNum.mk 0 1, "", false)
  | .Super => (16, FNum.mk 0 1, "", false)
  | .Import => (17, FNum.mk 0 1, "", false)
  | .Export => (18, FNum.mk 0 1, "", false)
  | .Match => (19, FNum.mk 0 1, "", false)
  | .Case => (20, FNum.mk 0 1, "", false)
  | .Default => (21, FNum.mk 0 1, "", false)
  | .Temporal => (22, FNum.mk 0 1, "", false)
  | .Freeze => (23, FNum.mk 0 1, "", false)
  | .Thaw => (24, FNum.mk 0 1, "", false)
  | .Timeline => (25, FNum.mk 0 1, "", false)
  | .Plus => (26, FNum.mk 0 1, "", false)
  | .Minus => (27, FNum.mk 0 1, "", false)
  | .Multiply => (28, FNum.mk 0 1, "", false)
  | .Divide => (29, FNum.mk 0 1, "", false)
  | .Modulo => (30, FNum.mk 0 1, "", false)
  | .Assign => (31, FNum.mk 0 1, "", false)
  | .Equal => (32, FNum.mk 0 1, "", false)
  | .NotEqual => (33, FNum.mk 0 1, "", false)
  | .Less => (34, FNum.mk 0 1, "", false)
  | .Greater => (35, FNum.mk 0 1, "", false)
  | .LessEqual => (36, FNum.mk 0 1, "", false)
  | .GreaterEqual => (37, FNum.mk 0 1, "", false)
  | .And => (38, FNum.mk 0 1, "", false)
  | .Or => (39, FNum.mk 0 1, "", false)
  | .Not => (40, FNum.mk 0 1, "", false)
  | .Arrow => (41, FNum.mk 0 1, "", false)
  | .FatArrow => (42, FNum.mk 0 1, "", false)
  | .Pipe => (43, FNum.mk 0 1, "", false)
  | .Compose => (44, FNum.mk 0 1, "", false)
  | .LeftParen => (45, FNum.mk 0 1, "", false)
  | .RightParen => (46, FNum.mk 0 1, "", false)
  | .LeftBrace => (47, FNum.mk 0 1, "", false)
  | .RightBrace => (48, FNum.mk 0 1, "", false)
  | .LeftBracket => (49, FNum.mk 0 1, "", false)
  | .RightBracket => (50, FNum.mk 0 1, "", false)
  | .Comma => (51, FNum.mk 0 1, "", false)
  | .Semicolon => (52, FNum.mk 0 1, "", false)
  | .Colon => (53, FNum.mk 0 1, "", false)
  | .Dot => (54, FNum.mk 0 1, "", false)
  | .Question => (55, FNum.mk 0 1, "", false)
  | .Bang => (56, FNum.mk 0 1, "", false)
  | .Newline => (57, FNum.mk 0 1, "", false)
  | .Indent => (58, FNum.mk 0 1, "", false)
  | .Dedent => (59, FNum.mk 0 1, "", false)
  | .EOF => (60, FNum.mk 0 1, "", false)
  | .Pragma s => (61, FNum.mk 0 1, s, false)

/-- Left inverse of `tokEncode`. -/
def tokDecode : Nat × FNum × String × Bool → TokenType
  | (0, n, _, _) => .Number n
  | (1, _, s, _) => .String s
  | (2, _, _, b) => .Boolean b
  | (3, _, s, _) => .Identifier s
  | (4, _, _, _) => .Let
  | (5, _, _, _) => .Const
  | (6, _, _, _) => .Func
  | (7, _, _, _) => .Return
  | (8, _, _, _) => .If
  | (9, _, _, _) => .Else
  | (10, _, _, _) => .While
  | (11, _, _, _) => .For
  | (12, _, _, _) => .Class
  | (13, _, _, _) => .Extends
  | (14, _, _, _) => .New
  | (15, _, _, _) => .This
  | (16, _, _, _) => .Super
  | (17, _, _, _) => .Import
  | (18, _, _, _) => .Export
  | (19, _, _, _) => .Match
  | (20, _, _, _) => .Case
  | (21, _, _, _) => .Default
  | (22, _, _, _) => .Temporal
  | (23, _, _, _) => .Freeze
  | (24, _, _, _) => .Thaw
  | (25, _, _, _) => .Timeline
  | (26, _, _, _) => .Plus
  | (27, _, _, _) => .Minus
  | (28, _, _, _) => .Multiply
  | (29, _, _, _) => .Divide
  | (30, _, _, _) => .Modulo
  | (31, _, _, _) => .Assign
  | (32, _, _, _) => .Equal
  | (33, _, _, _) => .NotEqual
  | (34, _, _, _) => .Less
  | (35, _, _, _) => .Greater
  | (36, _, _, _) => .LessEqual
  | (37, _, _, _) => .GreaterEqual
  | (38, _, _, _) => .And
  | (39, _, _, _) => .Or
  | (40, _, _, _) => .Not
  | (41, _, _, _) => .Arrow
  | (42, _, _, _) => .FatArrow
  | (43, _, _, _) => .Pipe
  | (44, _, _, _) => .Compose
  | (45, _, _, _) => .LeftParen
  | (46, _, _, _) => .RightParen
  | (47, _, _, _) => .LeftBrace
  | (48, _, _, _) => .RightBrace
  | (49, _, _, _) => .LeftBracket
  | (50, _, _, _) => .RightBracket
  | (51, _, _, _) => .Comma
  | (52, _, _, _) => .Semicolon
  | (53, _, _, _) => .Colon
  | (54, _, _, _) => .Dot
  | (55, _, _, _) => .Question
  | (56, _, _, _) => .Bang
  | (57, _, _, _) => .Newline
  | (58, _, _, _) => .Indent
  | (59, _, _, _) => .Dedent
  | (60, _, _, _) => .EOF
  | (61, _, s, _) => .Pragma s
  | _ => .EOF

instance : DecidableEq TokenType := fun a b =>
  if h : tokEncode a = tokEncode b then
    .isTrue (by
      have inv : ∀ t : TokenType, tokDecode (tokEncode t) = t := by
        intro t
        cases t <;> rfl
      rw [show a = tokDecode (tokEncode a) from (inv a).symm, h, inv b])
  else .isFalse (fun he => h (by rw [he]))

/-- Lexer state.  `remaining` models `input` plus `position`/`current_char`
(the current character is `remaining.head?`, `peek k` is `remaining.get? k`).
`diagnostics` models the stderr stream written by `eprintln!`.
`indent_stack` is initialized and never consulted, exactly as in the source. -/
structure Lexer where
  remaining : List Char
  line : Nat
  column : Nat
  use_braces : Bool
  indent_stack : List Nat
  diagnostics : List String
deriving DecidableEq, Repr

/-- `Lexer::new`. -/
def Lexer.new (input : String) : Lexer :=
  { remaining := input.data
    line := 1
    column := 1
    use_braces := true
    indent_stack := [0]
    diagnostics := [] }

/-- `Lexer::advance`.  (At end of input the Rust code keeps bumping
`position`/`column` past the end, which is observationally irrelevant; the
model leaves the state unchanged there.) -/
def Lexer.advance (s : Lexer) : Lexer :=
  match s.remaining with
  | [] => s
  | c :: rest =>
    if c = '\n' then { s with remaining := rest, line := s.line + 1, column := 1 }
    else { s with remaining := rest, column := s.column + 1 }

/-- `advance` iterated `n` times. -/
def Lexer.advanceBy (s : Lexer) : Nat → Lexer
  | 0 => s
  | n + 1 => s.advance.advanceBy n

/-- The whitespace class of `skip_whitespace` (`' '`, `'\t'`, `'\r'`). -/
def isWsChar (c : Char) : Bool := c = ' ' || c = '\t' || c = '\r'

/-- The character class consumed by `read_number`. -/
def isNumChar (c : Char) : Bool := c.isDigit || c = '.'

/-- The character class consumed by `read_identifier` (`is_alphanumeric` or
`'_'`; ASCII restriction of the Unicode class, adequate for ASCII sources). -/
def isIdentChar (c : Char) : Bool := c.isAlphanum || c = '_'

/-- First character of an identifier (`is_alphabetic` or `'_'`). -/
def isIdentStartChar (c : Char) : Bool := c.isAlpha || c = '_'

/-- `Lexer::skip_whitespace`. -/
def Lexer.skip_whitespace (s : Lexer) : Lexer :=
  s.advanceBy (s.remaining.takeWhile isWsChar).length

/-- `Lexer::read_identifier`. -/
def Lexer.read_identifier (s : Lexer) : String × Lexer :=
  let cs := s.remaining.takeWhile isIdentChar
  (String.mk cs, s.advanceBy cs.length)

/-- Digit string to natural number. -/
def digitsToNat (cs : List Char) : Nat :=
  cs.foldl (fun a c => a * 10 + (c.toNat - 48)) 0

/-- Model of `number_str.parse::<f64>().unwrap_or(0.0)` for the strings
`read_number` can collect (digits and dots): at most one dot and at least one
digit parses to the exact decimal value; anything else fails and yields `0.0`. -/
def parseF64 (cs : List Char) : FNum :=
  match cs.splitOn '.' with
  | [ip] => ⟨digitsToNat ip, 1⟩
  | [ip, fp] =>
    if ip.isEmpty && fp.isEmpty then 0
    else FNum.norm (digitsToNat ip * 10 ^ fp.length + digitsToNat fp) (10 ^ fp.length)
  | _ => 0

/-- `Lexer::read_number`. -/
def Lexer.read_number (s : Lexer) : FNum × Lexer :=
  let cs := s.remaining.takeWhile isNumChar
  (parseF64 cs, s.advanceBy cs.length)

/-- The escape mapping of `read_string` (`n`, `t`, `r`, `\`, `"`; identity on
other letters). -/
def escMap (c : Char) : Char :=
  if c = 'n' then '\n'
  else if c = 't' then '\t'
  else if c = 'r' then '\r'
  else if c = '\\' then '\\'
  else if c = '"' then '"'
  else c

/-- Body of `Lexer::read_string` after the opening quote: returns the decoded
contents and the number of characters consumed (closing quote included). -/
def readStringAux : List Char → List Char × Nat
  | [] => ([], 0)
  | '"' :: _ => ([], 1)
  | '\\' :: rest =>
    match rest with
    | [] => ([], 1)
    | e :: rest' =>
      let p := readStringAux rest'
      (escMap e :: p.1, p.2 + 2)
  | c :: rest =>
    let p := readStringAux rest
    (c :: p.1, p.2 + 1)

/-- `Lexer::read_string`. -/
def Lexer.read_string (s : Lexer) : String × Lexer :=
  let s1 := s.advance
  let p := readStringAux s1.remaining
  (String.mk p.1, s1.advanceBy p.2)

/-- Whitespace-trimming on character lists (model of `str::trim`; the pragma
content comes from `read_identifier`, so trimming is a no-op there, as in the
source). -/
def trimChars (cs : List Char) : List Char :=
  ((cs.dropWhile Char.isWhitespace).reverse.dropWhile Char.isWhitespace).reverse

/-- `Lexer::handle_pragma`. -/
def Lexer.handle_pragma (s : Lexer) (pragma_content : String) : Lexer :=
  match String.mk (trimChars pragma_content.data) with
  | "braces" => { s with use_braces := true }
  | "indent" => { s with use_braces := false }
  | "no_braces" => { s with use_braces := false }
  | _ => s

/-- The keyword table of `tokenize`'s identifier arm. -/
def keywordOf (identifier : String) : TokenType :=
  match identifier with
  | "let" => .Let
  | "const" => .Const
  | "func" => .Func
  | "return" => .Return
  | "if" => .If
  | "else" => .Else
  | "while" => .While
  | "for" => .For
  | "class" => .Class
  | "extends" => .Extends
  | "new" => .New
  | "this" => .This
  | "super" => .Super
  | "import" => .Import
  | "export" => .Export
  | "match" => .Match
  | "case" => .Case
  | "default" => .Default
  | "temporal" => .Temporal
  | "freeze" => .Freeze
  | "thaw" => .Thaw
  | "timeline" => .Timeline
  | "true" => .Boolean true
  | "false" => .Boolean false
  | _ => .Identifier identifier

/-- One iteration of the `while self.current_char.is_some()` loop of
`Lexer::tokenize`: the tokens pushed during the iteration and the state
afterwards. -/
def Lexer.lexStep (s : Lexer) : List TokenType × Lexer :=
  match s.remaining with
  | [] => ([], s)
  | c :: rest =>
    if isWsChar c then ([], s.skip_whitespace)
    else if c = '\n' then
      ((if s.use_braces then [] else [TokenType.Newline]), s.advance)
    else if c = '#' then
      let s1 := s.advance
      match s1.remaining with
      | 'p' :: _ =>
        let p := s1.read_identifier
        if p.1 = "pragma" then
          let s3 := p.2.skip_whitespace
          let q := s3.read_identifier
          ([TokenType.Pragma q.1], q.2.handle_pragma q.1)
        else ([], p.2)
      | _ => ([], s1.advanceBy (s1.remaining.takeWhile (fun ch => ch ≠ '\n')).length)
    else if c = '+' then ([TokenType.Plus], s.advance)
    else if c = '-' then
      let s1 := s.advance
      match s1.remaining with
      | '>' :: _ => ([TokenType.Arrow], s1.advance)
      | _ => ([TokenType.Minus], s1)
    else if c = '*' then ([TokenType.Multiply], s.advance)
    else if c = '/' then ([TokenType.Divide], s.advance)
    else if c = '%' then ([TokenType.Modulo], s.advance)
    else if c = '=' then
      let s1 := s.advance
      match s1.remaining with
      | '=' :: _ => ([TokenType.Equal], s1.advance)
      | '>' :: _ => ([TokenType.FatArrow], s1.advance)
      | _ => ([TokenType.Assign], s1)
    else if c = '!' then
      let s1 := s.advance
      match s1.remaining with
      | '=' :: _ => ([TokenType.NotEqual], s1.advance)
      | _ => ([TokenType.Not], s1)
    else if c = '<' then
      let s1 := s.advance
      match s1.remaining with
      | '=' :: _ => ([TokenType.LessEqual], s1.advance)
      | _ => ([TokenType.Less], s1)
    else if c = '>' then
      let s1 := s.advance
      match s1.remaining with
      | '=' :: _ => ([TokenType.GreaterEqual], s1.advance)
      | _ => ([TokenType.Greater], s1)
    else if c = '&' then
      let s1 := s.advance
      match s1.remaining with
      | '&' :: _ => ([TokenType.And], s1.advance)
      | _ => ([], s1)
    else if c = '|' then
      let s1 := s.advance
      match s1.remaining with
      | '|' :: _ => ([TokenType.Or], s1.advance)
      | _ => ([TokenType.Pipe], s1)
    else if c = '(' then ([TokenType.LeftParen], s.advance)
    else if c = ')' then ([TokenType.RightParen], s.advance)
    else if c = '{' then
      ((if s.use_braces then [TokenType.LeftBrace] else []), s.advance)
    else if c = '}' then
      ((if s.use_braces then [TokenType.RightBrace] else []), s.advance)
    else if c = '[' then ([TokenType.LeftBracket], s.advance)
    else if c = ']' then ([TokenType.RightBracket], s.advance)
    else if c = ',' then ([TokenType.Comma], s.advance)
    else if c = ';' then ([TokenType.Semicolon], s.advance)
    else if c = ':' then ([TokenType.Colon], s.advance)
    else if c = '.' then
      match rest with
      | c2 :: _ =>
        if c2.isDigit then
          let p := s.read_number
          ([TokenType.Number p.1], p.2)
        else ([TokenType.Dot], s.advance)
      | [] => ([TokenType.Dot], s.advance)
    else if c = '?' then ([TokenType.Question], s.advance)
    else if c = '"' then
      let p := s.read_string
      ([TokenType.String p.1], p.2)
    else if c.isDigit then
      let p := s.read_number
      ([TokenType.Number p.1], p.2)
    else if isIdentStartChar c then
      let p := s.read_identifier
      ([keywordOf p.1], p.2)
    else
      let msg := "Unexpected character: " ++ String.mk [c] ++ " at line " ++
        toString s.line ++ ", column " ++ toString s.column
      let s1 := s.advance
      ([], { s1 with diagnostics := s1.diagnostics ++ [msg] })

/-- The tokenize loop, with fuel.  Each genuine iteration consumes at least one
character (`lexStep_remaining_lt` below), so fuel `remaining.length + 1` always
suffices; the fuel-exhaustion branch is unreachable for the canonical fuel used
by `Lexer.tokenize`. -/
def Lexer.tokenizeFuel : Nat → Lexer → List TokenType × Lexer
  | 0, s => ([TokenType.EOF], s)
  | fuel + 1, s =>
    match s.remaining with
    | [] => ([TokenType.EOF], s)
    | _ :: _ =>
      let p := s.lexStep
      let q := Lexer.tokenizeFuel fuel p.2
      (p.1 ++ q.1, q.2)

/-- `Lexer::tokenize`: the token list (terminated by `EOF`) and the final
lexer state (whose `diagnostics` collect the `eprintln!` output). -/
def Lexer.tokenize (s : Lexer) : List TokenType × Lexer :=
  Lexer.tokenizeFuel (s.remaining.length + 1) s

/-- Tokens of a source string. -/
def tokensOf (input : String) : List TokenType :=
  (Lexer.tokenize (Lexer.new input)).1

/-- Lexer diagnostics (stderr) of a source string. -/
def lexDiagnosticsOf (input : String) : List String :=
  (Lexer.tokenize (Lexer.new input)).2.diagnostics

/-- `ASTNode` from the source.  `Box` indirections disappear; `Vec` becomes
`List`; `f64` becomes `FNum`. -/
inductive ASTNode where
  | Program (statements : List ASTNode)
  | VarDecl (name : String) (value : ASTNode) (is_const : Bool) (is_temporal : Bool)
  | Assignment (name : String) (value : ASTNode)
  | FunctionDecl (name : String) (params : List String) (body : List ASTNode)
  | ClassDecl (name : String) (superclass : Option String) (methods : List ASTNode)
  | Return (value : ASTNode)
  | If (condition : ASTNode) (then_branch : List ASTNode) (else_branch : Option (List ASTNode))
  | While (condition : ASTNode) (body : List ASTNode)
  | Binary (left : ASTNode) (operator : String) (right : ASTNode)
  | Unary (operator : String) (operand : ASTNode)
  | Call (callee : ASTNode) (args : List ASTNode)
  | MemberAccess (object : ASTNode) (property : String)
  | Number (n : FNum)
  | String (s : String)
  | Boolean (b : Bool)
  | Identifier (name : String)
  | TemporalAccess (var : String) (timestamp : ASTNode)
  | Pipeline (exprs : List ASTNode)
  | Match (expr : ASTNode) (cases : List (ASTNode × List ASTNode))

/-- `FluxValue` from the source (the `HashMap` of `Object` as an association
list). -/
inductive FluxValue where
  | Number (n : FNum)
  | String (s : String)
  | Boolean (b : Bool)
  | Object (fields : List (String × FluxValue))

/-- `TemporalManager` from the source; `timelines` is the `HashMap` as an
association list, `usize` timestamps as `Nat`. -/
structure TemporalManager where
  timelines : List (String × List (Nat × FluxValue))
  current_time : Nat

/-- `TemporalManager::new`. -/
def TemporalManager.new : TemporalManager := ⟨[], 0⟩

/-- `TemporalManager::create_temporal_var`. -/
def TemporalManager.create_temporal_var (m : TemporalManager) (name : String)
    (initial_value : FluxValue) : TemporalManager :=
  { m with timelines := (m.timelines.filter (fun p => p.1 ≠ name)) ++
      [(name, [(m.current_time, initial_value)])] }

/-- `TemporalManager::get_at_time`: the latest timeline entry at or before the
requested timestamp (`iter().rev().find(..)` is `reverse.find?`). -/
def TemporalManager.get_at_time (m : TemporalManager) (name : String)
    (timestamp : Nat) : Option FluxValue :=
  match (m.timelines.find? (fun p => p.1 = name)).map Prod.snd with
  | some timeline => (timeline.reverse.find? (fun e => e.1 ≤ timestamp)).map Prod.snd
  | none => none

/-- `PipelineProcessor::process`: the first expression threaded through the
rest as the sole call argument at each stage. -/
def PipelineProcessor.process (expressions : List ASTNode) : Except String ASTNode :=
  match expressions with
  | [] => .error "Empty pipeline"
  | e :: rest => .ok (rest.foldl (fun result expr => ASTNode.Call expr [result]) e)

/-- The per-case condition of `PatternMatcher::compile_match`: the identifier
pattern `default` always matches (condition `true`); any other pattern is an
equality comparison against the scrutinee. -/
def PatternMatcher.caseCondition (expr pattern : ASTNode) : ASTNode :=
  match pattern with
  | .Identifier name =>
    if name = "default" then ASTNode.Boolean true
    else ASTNode.Binary expr "==" pattern
  | _ => ASTNode.Binary expr "==" pattern

/-- `PatternMatcher::compile_match`: the `for .. in cases.iter().enumerate().rev()`
loop threading an `Option` accumulator is a right fold over `cases`. -/
def PatternMatcher.compile_match (expr : ASTNode)
    (cases : List (ASTNode × List ASTNode)) : Except String ASTNode :=
  if cases.isEmpty then .error "Match expression must have at least one case"
  else
    let result := cases.foldr (fun pb acc =>
      some (ASTNode.If (PatternMatcher.caseCondition expr pb.1) pb.2
        (acc.map (fun e => [e])))) none
    match result with
    | some r => .ok r
    | none => .error "Failed to compile match expression"

/-- The constant-folding body of the optimizer's `Binary` arm, applied to the
already-optimized children (the `match (left.as_ref(), right.as_ref())` block
of the source, with the `_ => return` arms leaving the node in place). -/
def ASTOptimizer.binaryFoldStep (l : ASTNode) (operator : String) (r : ASTNode) : ASTNode :=
  match l, r with
  | .Number lv, .Number rv =>
    match operator with
    | "+" => .Number (lv.add rv)
    | "-" => .Number (lv.sub rv)
    | "*" => .Number (lv.mul rv)
    | "/" =>
      if rv ≠ 0 then .Number (lv.div rv)
      else .Binary l operator r
    | _ => .Binary l operator r
  | _, _ => .Binary l operator r

/-- The folding body of the optimizer's `Unary` arm, applied to the
already-optimized operand. -/
def ASTOptimizer.unaryFoldStep (operator : String) (o : ASTNode) : ASTNode :=
  match o with
  | .Number n =>
    match operator with
    | "-" => .Number n.neg
    | _ => .Unary operator o
  | _ => .Unary operator o

/-- The dead-branch body of the optimizer's `If` arm.  `c` is the optimized
condition; `thn`/`els` are the branches as given and `thnOpt`/`elsOpt` their
optimized forms (the optimizer is pure, so computing both and selecting
reproduces the Rust control flow exactly): a `true` literal optimizes only the
then-branch, a `false` literal only the else-branch, and any other condition
both — the `If` node itself is never replaced. -/
def ASTOptimizer.ifFoldStep (c : ASTNode) (thn thnOpt : List ASTNode)
    (els elsOpt : Option (List ASTNode)) : ASTNode :=
  match c with
  | .Boolean true => .If (.Boolean true) thnOpt els
  | .Boolean false => .If (.Boolean false) thn elsOpt
  | _ => .If c thnOpt elsOpt

mutual

/-- `ASTOptimizer::optimize` (with `optimizeList` for the in-place loops over
statement vectors).  In-place mutation of `*ast` becomes returning the
replacement node; each compound arm delegates to a step function holding the
arm's body verbatim. -/
def ASTOptimizer.optimize : ASTNode → ASTNode
  | .Program statements => .Program (ASTOptimizer.optimizeList statements)
  | .Binary left operator right =>
    ASTOptimizer.binaryFoldStep (ASTOptimizer.optimize left) operator
      (ASTOptimizer.optimize right)
  | .Unary operator operand =>
    ASTOptimizer.unaryFoldStep operator (ASTOptimizer.optimize operand)
  | .If condition then_branch else_branch =>
    ASTOptimizer.ifFoldStep (ASTOptimizer.optimize condition)
      then_branch (ASTOptimizer.optimizeList then_branch)
      else_branch
      (match else_branch with
       | some else_stmts => some (ASTOptimizer.optimizeList else_stmts)
       | none => none)
  | node => node

def ASTOptimizer.optimizeList : List ASTNode → List ASTNode
  | [] => []
  | stmt :: rest => ASTOptimizer.optimize stmt :: ASTOptimizer.optimizeList rest

end

/-- Model of Rust `format!("{:?}", token)` used in parser error messages.
(Rust's `Debug` would additionally escape quotes and backslashes inside string
payloads; the identity rendering is adequate for the sources considered here.) -/
def reprTok : TokenType → String
  | .Number n => "Number(" ++ n.toDebug ++ ")"
  | .String s => "String(\"" ++ s ++ "\")"
  | .Boolean b => "Boolean(" ++ (if b then "true" else "false") ++ ")"
  | .Identifier s => "Identifier(\"" ++ s ++ "\")"
  | .Let => "Let"
  | .Const => "Const"
  | .Func => "Func"
  | .Return => "Return"
  | .If => "If"
  | .Else => "Else"
  | .While => "While"
  | .For => "For"
  | .Class => "Class"
  | .Extends => "Extends"
  | .New => "New"
  | .This => "This"
  | .Super => "Super"
  | .Import => "Import"
  | .Export => "Export"
  | .Match => "Match"
  | .Case => "Case"
  | .Default => "Default"
  | .Temporal => "Temporal"
  | .Freeze => "Freeze"
  | .Thaw => "Thaw"
  | .Timeline => "Timeline"
  | .Plus => "Plus"
  | .Minus => "Minus"
  | .Multiply => "Multiply"
  | .Divide => "Divide"
  | .Modulo => "Modulo"
  | .Assign => "Assign"
  | .Equal => "Equal"
  | .NotEqual => "NotEqual"
  | .Less => "Less"
  | .Greater => "Greater"
  | .LessEqual => "LessEqual"
  | .GreaterEqual => "GreaterEqual"
  | .And => "And"
  | .Or => "Or"
  | .Not => "Not"
  | .Arrow => "Arrow"
  | .FatArrow => "FatArrow"
  | .Pipe => "Pipe"
  | .Compose => "Compose"
  | .LeftParen => "LeftParen"
  | .RightParen => "RightParen"
  | .LeftBrace => "LeftBrace"
  | .RightBrace => "RightBrace"
  | .LeftBracket => "LeftBracket"
  | .RightBracket => "RightBracket"
  | .Comma => "Comma"
  | .Semicolon => "Semicolon"
  | .Colon => "Colon"
  | .Dot => "Dot"
  | .Question => "Question"
  | .Bang => "Bang"
  | .Newline => "Newline"
  | .Indent => "Indent"
  | .Dedent => "Dedent"
  | .EOF => "EOF"
  | .Pragma s => "Pragma(\"" ++ s ++ "\")"

/-- Parser state: the remaining token list models `tokens` plus `current`
(`peek` is the head, defaulting to `EOF` past the end, as in the source). -/
def Parser.peek (ts : List TokenType) : TokenType := ts.headD .EOF

/-- `Parser::consume`.  The source compares `mem::discriminant`s; every call
site passes a payload-free expected token, for which discriminant equality
coincides with equality. -/
def Parser.consume (expected : TokenType) (ts : List TokenType) :
    Except String (List TokenType) :=
  if Parser.peek ts = expected then .ok ts.tail
  else .error ("Expected " ++ reprTok expected ++ ", found " ++ reprTok (Parser.peek ts))

/-- Error used when the parser's fuel runs out.  Each recursive call of the
Rust parser strictly advances the token cursor or fails, so the canonical fuel
chosen in `Parser.parse` is never exhausted; no theorem below depends on this
branch. -/
def parserFuelMsg : String := "parser fuel exhausted (unreachable for the canonical fuel)"

set_option maxHeartbeats 4000000 in
mutual

/-- The statement-collecting loop of `Parser::parse` (accumulator reversed at
the end). -/
def parseTop : Nat → List TokenType → List ASTNode → Except String ASTNode
  | 0, _, _ => .error parserFuelMsg
  | fuel + 1, ts, acc =>
    match Parser.peek ts with
    | .EOF => .ok (.Program acc.reverse)
    | .Pragma _ => parseTop fuel ts.tail acc
    | _ => do
      let p ← parse_statement fuel ts
      parseTop fuel p.2 (p.1 :: acc)

/-- `Parser::parse_statement`. -/
def parse_statement : Nat → List TokenType → Except String (ASTNode × List TokenType)
  | 0, _ => .error parserFuelMsg
  | fuel + 1, ts =>
    match Parser.peek ts with
    | .Let => parse_var_decl fuel false false ts
    | .Const => parse_var_decl fuel true false ts
    | .Temporal =>
      match Parser.peek ts.tail with
      | .Let => parse_var_decl fuel false true ts.tail
      | .Const => parse_var_decl fuel true true ts.tail
      | _ => .error "Expected 'let' or 'const' after 'temporal'"
    | .Func => parse_function fuel ts
    | .Class => parse_class fuel ts
    | .Return => parse_return fuel ts
    | .If => parse_if fuel ts
    | .While => parse_while fuel ts
    | .Match => parse_match fuel ts
    | _ => parse_expression fuel ts

/-- `Parser::parse_var_decl` (entered with `peek` at the `let`/`const`). -/
def parse_var_decl : Nat → Bool → Bool → List TokenType →
    Except String (ASTNode × List TokenType)
  | 0, _, _, _ => .error parserFuelMsg
  | fuel + 1, is_const, is_temporal, ts =>
    let ts1 := ts.tail
    match Parser.peek ts1 with
    | .Identifier var_name => do
      let ts2 ← Parser.consume .Assign ts1.tail
      let p ← parse_expression fuel ts2
      .ok (.VarDecl var_name p.1 is_const is_temporal, p.2)
    | _ => .error "Expected identifier after variable declaration"

/-- `Parser::parse_function`. -/
def parse_function : Nat → List TokenType → Except String (ASTNode × List TokenType)
  | 0, _ => .error parserFuelMsg
  | fuel + 1, ts =>
    let ts1 := ts.tail
    match Parser.peek ts1 with
    | .Identifier name => do
      let ts2 ← Parser.consume .LeftParen ts1.tail
      let ps ← parseParams fuel ts2 []
      let ts3 ← Parser.consume .RightParen ps.2
      let ts4 ← Parser.consume .LeftBrace ts3
      let body ← parseStmtsUntilRBrace fuel ts4 []
      let ts5 ← Parser.consume .RightBrace body.2
      .ok (.FunctionDecl name ps.1 body.1, ts5)
    | _ => .error "Expected function name"

/-- The parameter-list loop of `parse_function`. -/
def parseParams : Nat → List TokenType → List String →
    Except String (List String × List TokenType)
  | 0, _, _ => .error parserFuelMsg
  | fuel + 1, ts, acc =>
    match Parser.peek ts with
    | .RightParen => .ok (acc.reverse, ts)
    | .Identifier param =>
      let ts1 := ts.tail
      let ts2 := if Parser.peek ts1 = .Comma then ts1.tail else ts1
      parseParams fuel ts2 (param :: acc)
    | _ => .error "Expected parameter name"

/-- The `while !matches!(self.peek(), RightBrace)` statement loops shared by
function bodies, branches and loop bodies. -/
def parseStmtsUntilRBrace : Nat → List TokenType → List ASTNode →
    Except String (List ASTNode × List TokenType)
  | 0, _, _ => .error parserFuelMsg
  | fuel + 1, ts, acc =>
    match Parser.peek ts with
    | .RightBrace => .ok (acc.reverse, ts)
    | _ => do
      let p ← parse_statement fuel ts
      parseStmtsUntilRBrace fuel p.2 (p.1 :: acc)

/-- `Parser::parse_class`. -/
def parse_class : Nat → List TokenType → Except String (ASTNode × List TokenType)
  | 0, _ => .error parserFuelMsg
  | fuel + 1, ts =>
    let ts1 := ts.tail
    match Parser.peek ts1 with
    | .Identifier name =>
      let afterName := ts1.tail
      match Parser.peek afterName with
      | .Extends =>
        match Parser.peek afterName.tail with
        | .Identifier super_name => do
          let ts2 ← Parser.consume .LeftBrace afterName.tail.tail
          let ms ← parseMethods fuel ts2 []
          let ts3 ← Parser.consume .RightBrace ms.2
          .ok (.ClassDecl name (some super_name) ms.1, ts3)
        | _ => .error "Expected superclass name"
      | _ => do
        let ts2 ← Parser.consume .LeftBrace afterName
        let ms ← parseMethods fuel ts2 []
        let ts3 ← Parser.consume .RightBrace ms.2
        .ok (.ClassDecl name none ms.1, ts3)
    | _ => .error "Expected class name"

/-- The method loop of `parse_class`. -/
def parseMethods : Nat → List TokenType → List ASTNode →
    Except String (List ASTNode × List TokenType)
  | 0, _, _ => .error parserFuelMsg
  | fuel + 1, ts, acc =>
    match Parser.peek ts with
    | .RightBrace => .ok (acc.reverse, ts)
    | _ => do
      let p ← parse_function fuel ts
      parseMethods fuel p.2 (p.1 :: acc)

/-- `Parser::parse_return`. -/
def parse_return : Nat → List TokenType → Except String (ASTNode × List TokenType)
  | 0, _ => .error parserFuelMsg
  | fuel + 1, ts => do
    let p ← parse_expression fuel ts.tail
    .ok (.Return p.1, p.2)

/-- `Parser::parse_if`. -/
def parse_if : Nat → List TokenType → Except String (ASTNode × List TokenType)
  | 0, _ => .error parserFuelMsg
  | fuel + 1, ts => do
    let c ← parse_expression fuel ts.tail
    let ts1 ← Parser.consume .LeftBrace c.2
    let thn ← parseStmtsUntilRBrace fuel ts1 []
    let ts2 ← Parser.consume .RightBrace thn.2
    match Parser.peek ts2 with
    | .Else => do
      let ts3 ← Parser.consume .LeftBrace ts2.tail
      let els ← parseStmtsUntilRBrace fuel ts3 []
      let ts4 ← Parser.consume .RightBrace els.2
      .ok (.If c.1 thn.1 (some els.1), ts4)
    | _ => .ok (.If c.1 thn.1 none, ts2)

/-- `Parser::parse_while`. -/
def parse_while : Nat → List TokenType → Except String (ASTNode × List TokenType)
  | 0, _ => .error parserFuelMsg
  | fuel + 1, ts => do
    let c ← parse_expression fuel ts.tail
    let ts1 ← Parser.consume .LeftBrace c.2
    let body ← parseStmtsUntilRBrace fuel ts1 []
    let ts2 ← Parser.consume .RightBrace body.2
    .ok (.While c.1 body.1, ts2)

/-- `Parser::parse_match`. -/
def parse_match : Nat → List TokenType → Except String (ASTNode × List TokenType)
  | 0, _ => .error parserFuelMsg
  | fuel + 1, ts => do
    let e ← parse_expression fuel ts.tail
    let ts1 ← Parser.consume .LeftBrace e.2
    let cs ← parseMatchCases fuel ts1 []
    let ts2 ← Parser.consume .RightBrace cs.2
    .ok (.Match e.1 cs.1, ts2)

/-- The case loop of `parse_match`. -/
def parseMatchCases : Nat → List TokenType → List (ASTNode × List ASTNode) →
    Except String (List (ASTNode × List ASTNode) × List TokenType)
  | 0, _, _ => .error parserFuelMsg
  | fuel + 1, ts, acc =>
    match Parser.peek ts with
    | .RightBrace => .ok (acc.reverse, ts)
    | _ => do
      let pat ← parse_expression fuel ts
      let ts1 ← Parser.consume .FatArrow pat.2
      match Parser.peek ts1 with
      | .LeftBrace => do
        let body ← parseStmtsUntilRBrace fuel ts1.tail []
        let ts2 ← Parser.consume .RightBrace body.2
        parseMatchCases fuel ts2 ((pat.1, body.1) :: acc)
      | _ => do
        let stmt ← parse_statement fuel ts1
        parseMatchCases fuel stmt.2 ((pat.1, [stmt.1]) :: acc)

/-- `Parser::parse_expression`. -/
def parse_expression : Nat → List TokenType → Except String (ASTNode × List TokenType)
  | 0, _ => .error parserFuelMsg
  | fuel + 1, ts => parse_pipeline fuel ts

/-- `Parser::parse_pipeline`. -/
def parse_pipeline : Nat → List TokenType → Except String (ASTNode × List TokenType)
  | 0, _ => .error parserFuelMsg
  | fuel + 1, ts => do
    let e ← parse_logical_or fuel ts
    let p ← parsePipelineLoop fuel [e.1] e.2
    if p.1.length > 1 then .ok (.Pipeline p.1.reverse, p.2)
    else .ok (e.1, p.2)

/-- The `while matches!(self.peek(), Pipe)` loop of `parse_pipeline`
(accumulator in reverse order). -/
def parsePipelineLoop : Nat → List ASTNode → List TokenType →
    Except String (List ASTNode × List TokenType)
  | 0, _, _ => .error parserFuelMsg
  | fuel + 1, acc, ts =>
    match Parser.peek ts with
    | .Pipe => do
      let e ← parse_logical_or fuel ts.tail
      parsePipelineLoop fuel (e.1 :: acc) e.2
    | _ => .ok (acc, ts)

/-- `Parser::parse_logical_or`. -/
def parse_logical_or : Nat → List TokenType → Except String (ASTNode × List TokenType)
  | 0, _ => .error parserFuelMsg
  | fuel + 1, ts => do
    let l ← parse_logical_and fuel ts
    parseOrLoop fuel l.1 l.2

/-- The operator loop of `parse_logical_or`. -/
def parseOrLoop : Nat → ASTNode → List TokenType →
    Except String (ASTNode × List TokenType)
  | 0, _, _ => .error parserFuelMsg
  | fuel + 1, left, ts =>
    match Parser.peek ts with
    | .Or => do
      let r ← parse_logical_and fuel ts.tail
      parseOrLoop fuel (.Binary left "||" r.1) r.2
    | _ => .ok (left, ts)

/-- `Parser::parse_logical_and`. -/
def parse_logical_and : Nat → List TokenType → Except String (ASTNode × List TokenType)
  | 0, _ => .error parserFuelMsg
  | fuel + 1, ts => do
    let l ← parse_equality fuel ts
    parseAndLoop fuel l.1 l.2

/-- The operator loop of `parse_logical_and`. -/
def parseAndLoop : Nat → ASTNode → List TokenType →
    Except String (ASTNode × List TokenType)
  | 0, _, _ => .error parserFuelMsg
  | fuel + 1, left, ts =>
    match Parser.peek ts with
    | .And => do
      let r ← parse_equality fuel ts.tail
      parseAndLoop fuel (.Binary left "&&" r.1) r.2
    | _ => .ok (left, ts)

/-- `Parser::parse_equality`. -/
def parse_equality : Nat → List TokenType → Except String (ASTNode × List TokenType)
  | 0, _ => .error parserFuelMsg
  | fuel + 1, ts => do
    let l ← parse_comparison fuel ts
    parseEqLoop fuel l.1 l.2

/-- The operator loop of `parse_equality`. -/
def parseEqLoop : Nat → ASTNode → List TokenType →
    Except String (ASTNode × List TokenType)
  | 0, _, _ => .error parserFuelMsg
  | fuel + 1, left, ts =>
    match Parser.peek ts with
    | .Equal => do
      let r ← parse_comparison fuel ts.tail
      parseEqLoop fuel (.Binary left "==" r.1) r.2
    | .NotEqual => do
      let r ← parse_comparison fuel ts.tail
      parseEqLoop fuel (.Binary left "!=" r.1) r.2
    | _ => .ok (left, ts)

/-- `Parser::parse_comparison`. -/
def parse_comparison : Nat → List TokenType → Except String (ASTNode × List TokenType)
  | 0, _ => .error parserFuelMsg
  | fuel + 1, ts => do
    let l ← parse_addition fuel ts
    parseCmpLoop fuel l.1 l.2

/-- The operator loop of `parse_comparison`. -/
def parseCmpLoop : Nat → ASTNode → List TokenType →
    Except String (ASTNode × List TokenType)
  | 0, _, _ => .error parserFuelMsg
  | fuel + 1, left, ts =>
    match Parser.peek ts with
    | .Less => do
      let r ← parse_addition fuel ts.tail
      parseCmpLoop fuel (.Binary left "<" r.1) r.2
    | .Greater => do
      let r ← parse_addition fuel ts.tail
      parseCmpLoop fuel (.Binary left ">" r.1) r.2
    | .LessEqual => do
      let r ← parse_addition fuel ts.tail
      parseCmpLoop fuel (.Binary left "<=" r.1) r.2
    | .GreaterEqual => do
      let r ← parse_addition fuel ts.tail
      parseCmpLoop fuel (.Binary left ">=" r.1) r.2
    | _ => .ok (left, ts)

/-- `Parser::parse_addition`. -/
def parse_addition : Nat → List TokenType → Except String (ASTNode × List TokenType)
  | 0, _ => .error parserFuelMsg
  | fuel + 1, ts => do
    let l ← parse_multiplication fuel ts
    parseAddLoop fuel l.1 l.2

/-- The operator loop of `parse_addition`. -/
def parseAddLoop : Nat → ASTNode → List TokenType →
    Except String (ASTNode × List TokenType)
  | 0, _, _ => .error parserFuelMsg
  | fuel + 1, left, ts =>
    match Parser.peek ts with
    | .Plus => do
      let r ← parse_multiplication fuel ts.tail
      parseAddLoop fuel (.Binary left "+" r.1) r.2
    | .Minus => do
      let r ← parse_multiplication fuel ts.tail
      parseAddLoop fuel (.Binary left "-" r.1) r.2
    | _ => .ok (left, ts)

/-- `Parser::parse_multiplication`. -/
def parse_multiplication : Nat → List TokenType → Except String (ASTNode × List TokenType)
  | 0, _ => .error parserFuelMsg
  | fuel + 1, ts => do
    let l ← parse_unary fuel ts
    parseMulLoop fuel l.1 l.2

/-- The operator loop of `parse_multiplication`. -/
def parseMulLoop : Nat → ASTNode → List TokenType →
    Except String (ASTNode × List TokenType)
  | 0, _, _ => .error parserFuelMsg
  | fuel + 1, left, ts =>
    match Parser.peek ts with
    | .Multiply => do
      let r ← parse_unary fuel ts.tail
      parseMulLoop fuel (.Binary left "*" r.1) r.2
    | .Divide => do
      let r ← parse_unary fuel ts.tail
      parseMulLoop fuel (.Binary left "/" r.1) r.2
    | .Modulo => do
      let r ← parse_unary fuel ts.tail
      parseMulLoop fuel (.Binary left "%" r.1) r.2
    | _ => .ok (left, ts)

/-- `Parser::parse_unary`. -/
def parse_unary : Nat → List TokenType → Except String (ASTNode × List TokenType)
  | 0, _ => .error parserFuelMsg
  | fuel + 1, ts =>
    match Parser.peek ts with
    | .Not => do
      let o ← parse_unary fuel ts.tail
      .ok (.Unary "!" o.1, o.2)
    | .Minus => do
      let o ← parse_unary fuel ts.tail
      .ok (.Unary "-" o.1, o.2)
    | _ => parse_call fuel ts

/-- `Parser::parse_call`. -/
def parse_call : Nat → List TokenType → Except String (ASTNode × List TokenType)
  | 0, _ => .error parserFuelMsg
  | fuel + 1, ts => do
    let p ← parse_primary fuel ts
    parseCallLoop fuel p.1 p.2

/-- The postfix loop of `parse_call` (calls, member access, index/temporal
access; a bracket after a non-identifier is parsed and dropped, as in the
source). -/
def parseCallLoop : Nat → ASTNode → List TokenType →
    Except String (ASTNode × List TokenType)
  | 0, _, _ => .error parserFuelMsg
  | fuel + 1, expr, ts =>
    match Parser.peek ts with
    | .LeftParen => do
      let args ← parseArgs fuel ts.tail []
      let ts1 ← Parser.consume .RightParen args.2
      parseCallLoop fuel (.Call expr args.1) ts1
    | .Dot =>
      match Parser.peek ts.tail with
      | .Identifier property => parseCallLoop fuel (.MemberAccess expr property) ts.tail.tail
      | _ => .error "Expected property name after '.'"
    | .LeftBracket => do
      let t ← parse_expression fuel ts.tail
      let ts1 ← Parser.consume .RightBracket t.2
      match expr with
      | .Identifier var_name => parseCallLoop fuel (.TemporalAccess var_name t.1) ts1
      | _ => parseCallLoop fuel expr ts1
    | _ => .ok (expr, ts)

/-- The argument loop of `parse_call`'s `LeftParen` arm. -/
def parseArgs : Nat → List TokenType → List ASTNode →
    Except String (List ASTNode × List TokenType)
  | 0, _, _ => .error parserFuelMsg
  | fuel + 1, ts, acc =>
    match Parser.peek ts with
    | .RightParen => .ok (acc.reverse, ts)
    | _ => do
      let a ← parse_expression fuel ts
      let ts1 := if Parser.peek a.2 = .Comma then a.2.tail else a.2
      parseArgs fuel ts1 (a.1 :: acc)

/-- `Parser::parse_primary`. -/
def parse_primary : Nat → List TokenType → Except String (ASTNode × List TokenType)
  | 0, _ => .error parserFuelMsg
  | fuel + 1, ts =>
    match Parser.peek ts with
    | .Number n => .ok (.Number n, ts.tail)
    | .String s => .ok (.String s, ts.tail)
    | .Boolean b => .ok (.Boolean b, ts.tail)
    | .Identifier name => .ok (.Identifier name, ts.tail)
    | .LeftParen => do
      let e ← parse_expression fuel ts.tail
      let ts1 ← Parser.consume .RightParen e.2
      .ok (e.1, ts1)
    | t => .error ("Unexpected token in expression: " ++ reprTok t)

end

/-- Canonical parser fuel: ample for any token list (the Rust parser's
recursion depth is bounded by a small multiple of the token count). -/
def parserFuel (tokens : List TokenType) : Nat := 20 * tokens.length + 20

/-- `Parser::parse` on a token list. -/
def Parser.parse (tokens : List TokenType) : Except String ASTNode :=
  parseTop (parserFuel tokens) tokens []

/-- `FluxType` from the source (the `HashMap` of `Object` as an association
list). -/
inductive FluxType where
  | Number
  | String
  | Boolean
  | Function (params : List FluxType) (ret : FluxType)
  | Object (fields : List (String × FluxType))
  | Temporal (inner : FluxType)
  | Any

/-- `Variable` from the source. -/
structure Variable where
  name : String
  flux_type : FluxType
  is_const : Bool
  is_temporal : Bool
  is_frozen : Bool
  timeline : List (Nat × FluxType)

/-- `SemanticAnalyzer` state; `symbol_table` is the `HashMap` as an
association list. -/
structure SemanticAnalyzer where
  symbol_table : List (String × Variable)
  current_scope : Nat
  timestamp : Nat
  errors : List String

/-- `HashMap::get` on the association-list model. -/
def tableLookup (t : List (String × Variable)) (k : String) : Option Variable :=
  (t.find? (fun p => p.1 = k)).map Prod.snd

/-- `HashMap::insert` on the association-list model (replace an existing key,
else append; the analyzer only ever inserts absent keys). -/
def tableInsert (t : List (String × Variable)) (k : String) (v : Variable) :
    List (String × Variable) :=
  if (t.find? (fun p => p.1 = k)).isSome then
    t.map (fun p => if p.1 = k then (k, v) else p)
  else t ++ [(k, v)]

/-- `SemanticAnalyzer::new`. -/
def SemanticAnalyzer.new : SemanticAnalyzer :=
  { symbol_table := [], current_scope := 0, timestamp := 0, errors := [] }

/-- `SemanticAnalyzer::infer_type`.  (In the `Binary` arm the source computes
the operand types and ignores them; the operator alone decides the result.) -/
def infer_type (a : SemanticAnalyzer) : ASTNode → FluxType
  | .Number _ => .Number
  | .String _ => .String
  | .Boolean _ => .Boolean
  | .Identifier name =>
    match tableLookup a.symbol_table name with
    | some var => var.flux_type
    | none => .Any
  | .Binary left operator right =>
    let left_type := infer_type a left
    let right_type := infer_type a right
    match left_type, right_type, operator with
    | _, _, "+" => .Number
    | _, _, "-" => .Number
    | _, _, "*" => .Number
    | _, _, "/" => .Number
    | _, _, "%" => .Number
    | _, _, "==" => .Boolean
    | _, _, "!=" => .Boolean
    | _, _, "<" => .Boolean
    | _, _, ">" => .Boolean
    | _, _, "<=" => .Boolean
    | _, _, ">=" => .Boolean
    | _, _, "&&" => .Boolean
    | _, _, "||" => .Boolean
    | _, _, _ => .Any
  | _ => .Any

mutual

/-- `SemanticAnalyzer::visit`.  Arms that `return` early in Rust skip the
trailing `self.timestamp += 1`, exactly as modelled here. -/
def SemanticAnalyzer.visit (a : SemanticAnalyzer) : ASTNode → SemanticAnalyzer
  | .Program statements =>
    let a1 := SemanticAnalyzer.visitList a statements
    { a1 with timestamp := a1.timestamp + 1 }
  | .VarDecl name value is_const is_temporal =>
    let value_type := infer_type a value
    if (tableLookup a.symbol_table name).isSome then
      { a with errors := a.errors ++ ["Variable '" ++ name ++ "' already declared"] }
    else
      let var : Variable :=
        { name := name
          flux_type := if is_temporal then .Temporal value_type else value_type
          is_const := is_const
          is_temporal := is_temporal
          is_frozen := false
          timeline := [(a.timestamp, infer_type a value)] }
      let a1 := { a with symbol_table := tableInsert a.symbol_table name var }
      let a2 := SemanticAnalyzer.visit a1 value
      { a2 with timestamp := a2.timestamp + 1 }
  | .Assignment name value =>
    match tableLookup a.symbol_table name with
    | some var =>
      if var.is_const then
        { a with errors := a.errors ++ ["Cannot reassign to const variable '" ++ name ++ "'"] }
      else if var.is_frozen then
        { a with errors := a.errors ++ ["Cannot modify frozen variable '" ++ name ++ "'"] }
      else
        let a1 := SemanticAnalyzer.visit a value
        { a1 with timestamp := a1.timestamp + 1 }
    | none =>
      let a1 := { a with errors := a.errors ++ ["Undefined variable '" ++ name ++ "'"] }
      let a2 := SemanticAnalyzer.visit a1 value
      { a2 with timestamp := a2.timestamp + 1 }
  | .TemporalAccess var timestamp =>
    let a1 :=
      match tableLookup a.symbol_table var with
      | some entry =>
        if entry.is_temporal then a
        else { a with errors := a.errors ++ ["Variable '" ++ var ++ "' is not temporal"] }
      | none => { a with errors := a.errors ++ ["Undefined variable '" ++ var ++ "'"] }
    let a2 := SemanticAnalyzer.visit a1 timestamp
    { a2 with timestamp := a2.timestamp + 1 }
  | .FunctionDecl _ _ body =>
    let a1 := { a with current_scope := a.current_scope + 1 }
    let a2 := SemanticAnalyzer.visitList a1 body
    let a3 := { a2 with current_scope := a2.current_scope - 1 }
    { a3 with timestamp := a3.timestamp + 1 }
  | .Binary left _ right =>
    let a1 := SemanticAnalyzer.visit a left
    let a2 := SemanticAnalyzer.visit a1 right
    { a2 with timestamp := a2.timestamp + 1 }
  | .Call callee args =>
    let a1 := SemanticAnalyzer.visit a callee
    let a2 := SemanticAnalyzer.visitList a1 args
    { a2 with timestamp := a2.timestamp + 1 }
  | .Pipeline exprs =>
    let a1 := SemanticAnalyzer.visitList a exprs
    { a1 with timestamp := a1.timestamp + 1 }
  | _ => { a with timestamp := a.timestamp + 1 }

/-- The `for` loops of `visit` over statement/expression vectors. -/
def SemanticAnalyzer.visitList (a : SemanticAnalyzer) : List ASTNode → SemanticAnalyzer
  | [] => a
  | stmt :: rest => SemanticAnalyzer.visitList (SemanticAnalyzer.visit a stmt) rest

end

/-- `SemanticAnalyzer::analyze`. -/
def SemanticAnalyzer.analyze (a : SemanticAnalyzer) (ast : ASTNode) :
    Except (List String) Unit :=
  let a1 := SemanticAnalyzer.visit a ast
  if a1.errors.isEmpty then .ok () else .error a1.errors

/-- `CodeGenerator` state. -/
structure CodeGenerator where
  output : String
  label_counter : Nat
  temp_counter : Nat

/-- `CodeGenerator::new`. -/
def CodeGenerator.new : CodeGenerator :=
  { output := "", label_counter := 0, temp_counter := 0 }

/-- Append to the output buffer (`self.output.push_str`). -/
def CodeGenerator.emit (g : CodeGenerator) (s : String) : CodeGenerator :=
  { g with output := g.output ++ s }

/-- `CodeGenerator::new_temp`. -/
def CodeGenerator.new_temp (g : CodeGenerator) : String × CodeGenerator :=
  let c := g.temp_counter + 1
  ("t" ++ toString c, { g with temp_counter := c })

/-- `CodeGenerator::new_label`. -/
def CodeGenerator.new_label (g : CodeGenerator) : String × CodeGenerator :=
  let c := g.label_counter + 1
  ("L" ++ toString c, { g with label_counter := c })

/-- `CodeGenerator::emit_header`. -/
def CodeGenerator.emit_header (g : CodeGenerator) : CodeGenerator :=
  g.emit ("; Flux Language - Generated LLVM IR\n" ++
    "target triple = \"x86_64-pc-linux-gnu\"\n\n" ++
    "declare i32 @printf(i8*, ...)\n" ++
    "declare i8* @malloc(i64)\n" ++
    "declare void @free(i8*)\n\n" ++
    "@.str_num = private unnamed_addr constant [6 x i8] c\"%f\\0A\\00\"\n" ++
    "@.str_str = private unnamed_addr constant [4 x i8] c\"%s\\0A\\00\"\n" ++
    "@.str_bool_true = private unnamed_addr constant [6 x i8] c\"true\\0A\\00\"\n" ++
    "@.str_bool_false = private unnamed_addr constant [7 x i8] c\"false\\0A\\00\"\n\n" ++
    "%temporal_entry = type \x7b double, i8* \x7d\n" ++
    "%temporal_var = type \x7b i32, %temporal_entry* \x7d\n\n")

/-- `CodeGenerator::emit_footer`. -/
def CodeGenerator.emit_footer (g : CodeGenerator) : CodeGenerator :=
  g.emit ("\ndefine i32 @main() \x7b\n" ++
    "entry:\n" ++
    "  call void @flux_main()\n" ++
    "  ret i32 0\n" ++
    "\x7d\n")

mutual

/-- `CodeGenerator::visit` (statement-level emission).  Note that the source
interpolates `visit_expression` results — which already carry a leading `%` —
after a literal `%`, producing `%%tN` in statement-level `store`/`ret`/`fcmp`
lines; the concatenations below reproduce that verbatim. -/
def CodeGenerator.visit (g : CodeGenerator) : ASTNode → CodeGenerator
  | .Program statements =>
    let g1 := g.emit ("define void @flux_main() \x7b\n" ++ "entry:\n")
    let g2 := CodeGenerator.visitList g1 statements
    g2.emit ("  ret void\n" ++ "\x7d\n\n")
  | .VarDecl name value _ is_temporal =>
    let p := CodeGenerator.visit_expression g value
    let value_reg := p.1
    let g1 := p.2
    let g2 :=
      if is_temporal then
        let tv := g1.new_temp
        let temporal_var := tv.1
        let ga := tv.2.emit ("  %" ++ temporal_var ++ " = call i8* @malloc(i64 16)\n")
        let gb := ga.emit ("  %" ++ temporal_var ++ "_cast = bitcast i8* %" ++
          temporal_var ++ " to %temporal_var*\n")
        let ep := gb.new_temp
        let entry_ptr := ep.1
        let gc := ep.2.emit ("  %" ++ entry_ptr ++ " = call i8* @malloc(i64 16)\n")
        let gd := gc.emit ("  %" ++ entry_ptr ++ "_entry = bitcast i8* %" ++
          entry_ptr ++ " to %temporal_entry*\n")
        let tp := gd.new_temp
        let timestamp_ptr := tp.1
        let vp := tp.2.new_temp
        let value_ptr := vp.1
        let ge := vp.2.emit ("  %" ++ timestamp_ptr ++
          " = getelementptr %temporal_entry, %temporal_entry* %" ++ entry_ptr ++
          "_entry, i32 0, i32 0\n")
        let gf := ge.emit ("  store double 0.0, double* %" ++ timestamp_ptr ++ "\n")
        let gg := gf.emit ("  %" ++ value_ptr ++
          " = getelementptr %temporal_entry, %temporal_entry* %" ++ entry_ptr ++
          "_entry, i32 0, i32 1\n")
        gg.emit ("  store i8* null, i8** %" ++ value_ptr ++ "\n")
      else g1
    let g3 := g2.emit ("  %" ++ name ++ " = alloca double\n")
    g3.emit ("  store double %" ++ value_reg ++ ", double* %" ++ name ++ "\n")
  | .Assignment name value =>
    let p := CodeGenerator.visit_expression g value
    p.2.emit ("  store double %" ++ p.1 ++ ", double* %" ++ name ++ "\n")
  | .FunctionDecl name params body =>
    let param_list := String.intercalate ", " (params.map (fun _ => "double"))
    let g1 := g.emit ("define double @" ++ name ++ "(" ++ param_list ++ ") \x7b\n" ++
      "entry:\n")
    let g2 := CodeGenerator.emitParamStores g1 params 0
    let g3 := CodeGenerator.visitList g2 body
    g3.emit ("  ret double 0.0\n" ++ "\x7d\n\n")
  | .Return expr =>
    let p := CodeGenerator.visit_expression g expr
    p.2.emit ("  ret double %" ++ p.1 ++ "\n")
  | .If condition then_branch else_branch =>
    let c := CodeGenerator.visit_expression g condition
    let cond_reg := c.1
    let tl := c.2.new_label
    let then_label := tl.1
    let el := tl.2.new_label
    let else_label := el.1
    let en := el.2.new_label
    let end_label := en.1
    let br := en.2.new_temp
    let bool_reg := br.1
    let g1 := br.2.emit ("  %" ++ bool_reg ++ " = fcmp une double %" ++ cond_reg ++ ", 0.0\n")
    let g2 :=
      match else_branch with
      | some _ => g1.emit ("  br i1 %" ++ bool_reg ++ ", label %" ++ then_label ++
          ", label %" ++ else_label ++ "\n")
      | none => g1.emit ("  br i1 %" ++ bool_reg ++ ", label %" ++ then_label ++
          ", label %" ++ end_label ++ "\n")
    let g3 := g2.emit (then_label ++ ":\n")
    let g4 := CodeGenerator.visitList g3 then_branch
    let g5 := g4.emit ("  br label %" ++ end_label ++ "\n")
    let g6 :=
      match else_branch with
      | some else_stmts =>
        let ga := g5.emit (else_label ++ ":\n")
        let gb := CodeGenerator.visitList ga else_stmts
        gb.emit ("  br label %" ++ end_label ++ "\n")
      | none => g5
    g6.emit (end_label ++ ":\n")
  | .While condition body =>
    let ll := g.new_label
    let loop_label := ll.1
    let bl := ll.2.new_label
    let body_label := bl.1
    let en := bl.2.new_label
    let end_label := en.1
    let g1 := en.2.emit ("  br label %" ++ loop_label ++ "\n")
    let g2 := g1.emit (loop_label ++ ":\n")
    let c := CodeGenerator.visit_expression g2 condition
    let cond_reg := c.1
    let br := c.2.new_temp
    let bool_reg := br.1
    let g3 := br.2.emit ("  %" ++ bool_reg ++ " = fcmp une double %" ++ cond_reg ++ ", 0.0\n")
    let g4 := g3.emit ("  br i1 %" ++ bool_reg ++ ", label %" ++ body_label ++
      ", label %" ++ end_label ++ "\n")
    let g5 := g4.emit (body_label ++ ":\n")
    let g6 := CodeGenerator.visitList g5 body
    let g7 := g6.emit ("  br label %" ++ loop_label ++ "\n")
    g7.emit (end_label ++ ":\n")
  | .Pipeline exprs =>
    (CodeGenerator.visit_expression_list g exprs).2
  | _ => g

/-- The parameter alloca/store loop of the `FunctionDecl` arm. -/
def CodeGenerator.emitParamStores (g : CodeGenerator) :
    List String → Nat → CodeGenerator
  | [], _ => g
  | param :: rest, i =>
    let g1 := g.emit ("  %" ++ param ++ " = alloca double\n")
    let g2 := g1.emit ("  store double %" ++ toString i ++ ", double* %" ++ param ++ "\n")
    CodeGenerator.emitParamStores g2 rest (i + 1)

/-- The `for` loops of `visit` over statement vectors. -/
def CodeGenerator.visitList (g : CodeGenerator) : List ASTNode → CodeGenerator
  | [] => g
  | stmt :: rest => CodeGenerator.visitList (CodeGenerator.visit g stmt) rest

/-- `CodeGenerator::visit_expression`: the register string holding the value
(with its `%` prefix, or the bare string `"0"` for unhandled forms) and the
updated generator state. -/
def CodeGenerator.visit_expression (g : CodeGenerator) : ASTNode → String × CodeGenerator
  | .Number n =>
    let t := g.new_temp
    ("%" ++ t.1, t.2.emit ("  %" ++ t.1 ++ " = fadd double 0.0, " ++ n.toDisplay ++ "\n"))
  | .Boolean b =>
    let t := g.new_temp
    let value : FNum := if b then 1 else 0
    ("%" ++ t.1, t.2.emit ("  %" ++ t.1 ++ " = fadd double 0.0, " ++ value.toDisplay ++ "\n"))
  | .Identifier name =>
    let t := g.new_temp
    ("%" ++ t.1, t.2.emit ("  %" ++ t.1 ++ " = load double, double* %" ++ name ++ "\n"))
  | .Binary left operator right =>
    let l := CodeGenerator.visit_expression g left
    let r := CodeGenerator.visit_expression l.2 right
    let rr := r.2.new_temp
    let result_reg := rr.1
    let g1 := rr.2
    let g2 :=
      if operator = "+" then
        g1.emit ("  %" ++ result_reg ++ " = fadd double " ++ l.1 ++ ", " ++ r.1 ++ "\n")
      else if operator = "-" then
        g1.emit ("  %" ++ result_reg ++ " = fsub double " ++ l.1 ++ ", " ++ r.1 ++ "\n")
      else if operator = "*" then
        g1.emit ("  %" ++ result_reg ++ " = fmul double " ++ l.1 ++ ", " ++ r.1 ++ "\n")
      else if operator = "/" then
        g1.emit ("  %" ++ result_reg ++ " = fdiv double " ++ l.1 ++ ", " ++ r.1 ++ "\n")
      else if operator = "==" then
        (g1.emit ("  %" ++ result_reg ++ "_cmp = fcmp oeq double " ++ l.1 ++ ", " ++ r.1 ++ "\n")).emit
          ("  %" ++ result_reg ++ " = uitofp i1 %" ++ result_reg ++ "_cmp to double\n")
      else if operator = "<" then
        (g1.emit ("  %" ++ result_reg ++ "_cmp = fcmp olt double " ++ l.1 ++ ", " ++ r.1 ++ "\n")).emit
          ("  %" ++ result_reg ++ " = uitofp i1 %" ++ result_reg ++ "_cmp to double\n")
      else
        g1.emit ("  %" ++ result_reg ++ " = fadd double " ++ l.1 ++ ", " ++ r.1 ++ "\n")
    ("%" ++ result_reg, g2)
  | .Call callee args =>
    match callee with
    | .Identifier func_name =>
      if func_name = "print" then
        match args with
        | arg :: _ =>
          let a := CodeGenerator.visit_expression g arg
          let t := a.2.new_temp
          ("%" ++ t.1, t.2.emit ("  %" ++ t.1 ++
            " = call i32 (i8*, ...) @printf(i8* getelementptr inbounds ([6 x i8], [6 x i8]* @.str_num, i32 0, i32 0), double " ++
            a.1 ++ ")\n"))
        | [] => ("0", g)
      else
        let as' := CodeGenerator.visit_expression_list g args
        let t := as'.2.new_temp
        let args_str := String.intercalate ", " as'.1
        ("%" ++ t.1, t.2.emit ("  %" ++ t.1 ++ " = call double @" ++ func_name ++
          "(" ++ args_str ++ ")\n"))
    | _ => ("0", g)
  | .TemporalAccess var timestamp =>
    let ts := CodeGenerator.visit_expression g timestamp
    let t := ts.2.new_temp
    ("%" ++ t.1, t.2.emit ("  %" ++ t.1 ++ " = load double, double* %" ++ var ++ "\n"))
  | _ => ("0", g)

/-- Left-to-right evaluation of an expression list (call arguments, pipeline
stages), collecting the registers in order. -/
def CodeGenerator.visit_expression_list (g : CodeGenerator) :
    List ASTNode → List String × CodeGenerator
  | [] => ([], g)
  | e :: rest =>
    let p := CodeGenerator.visit_expression g e
    let q := CodeGenerator.visit_expression_list p.2 rest
    (p.1 :: q.1, q.2)

end

/-- `CodeGenerator::generate`. -/
def CodeGenerator.generate (g : CodeGenerator) (ast : ASTNode) : String :=
  ((g.emit_header.visit ast).emit_footer).output

/-- Model of Rust `format!("{:?}", errors)` for `errors : Vec<String>` (inner
escaping elided, as in `reprTok`). -/
def listDebug (xs : List String) : String :=
  "[" ++ String.intercalate ", " (xs.map (fun x => "\"" ++ x ++ "\"")) ++ "]"

/-- `FluxCompiler::compile`.  The `debug` flag only adds `println!` tracing in
the source and does not affect the result, so it is not modelled.  The stages
actually run are: lexing, parsing, semantic analysis, code generation — the
optimizer (`ASTOptimizer`), `PipelineProcessor` and `PatternMatcher` are never
invoked by `compile`. -/
def FluxCompiler.compile (source : String) : Except String String :=
  let tokens := (Lexer.tokenize (Lexer.new source)).1
  match Parser.parse tokens with
  | .error e => .error ("Parse error: " ++ e)
  | .ok ast =>
    match SemanticAnalyzer.new.analyze ast with
    | .error errors => .error ("Semantic errors: " ++ listDebug errors)
    | .ok _ => .ok (CodeGenerator.new.generate ast)

theorem optimize_program (s : List ASTNode) :
    ASTOptimizer.optimize (.Program s) = .Program (ASTOptimizer.optimizeList s) := rfl

theorem optimize_binary (l : ASTNode) (op : String) (r : ASTNode) :
    ASTOptimizer.optimize (.Binary l op r) =
      ASTOptimizer.binaryFoldStep (ASTOptimizer.optimize l) op (ASTOptimizer.optimize r) := rfl

theorem optimize_unary (op : String) (o : ASTNode) :
    ASTOptimizer.optimize (.Unary op o) =
      ASTOptimizer.unaryFoldStep op (ASTOptimizer.optimize o) := rfl

/-- `optimizeElse`: shorthand for the nested else-branch optimization match. -/
def optimizeElse : Option (List ASTNode) → Option (List ASTNode)
  | some els => some (ASTOptimizer.optimizeList els)
  | none => none

theorem optimize_if (c : ASTNode) (t : List ASTNode) (e : Option (List ASTNode)) :
    ASTOptimizer.optimize (.If c t e) =
      ASTOptimizer.ifFoldStep (ASTOptimizer.optimize c) t (ASTOptimizer.optimizeList t)
        e (optimizeElse e) := by
  cases e <;> rfl

theorem binaryFoldStep_cases (l : ASTNode) (op : String) (r : ASTNode) :
    (∃ v, ASTOptimizer.binaryFoldStep l op r = .Number v) ∨
      ASTOptimizer.binaryFoldStep l op r = .Binary l op r := by
  unfold ASTOptimizer.binaryFoldStep
  repeat' first
    | exact Or.inl ⟨_, rfl⟩
    | exact Or.inr rfl
    | split

theorem unaryFoldStep_cases (op : String) (o : ASTNode) :
    (∃ v, ASTOptimizer.unaryFoldStep op o = .Number v) ∨
      ASTOptimizer.unaryFoldStep op o = .Unary op o := by
  unfold ASTOptimizer.unaryFoldStep
  repeat' first
    | exact Or.inl ⟨_, rfl⟩
    | exact Or.inr rfl
    | split

mutual

theorem optimize_idem : (t : ASTNode) →
    ASTOptimizer.optimize (ASTOptimizer.optimize t) = ASTOptimizer.optimize t
  | .Program s => by
    rw [optimize_program, optimize_program, optimizeList_idem s]
  | .Binary l op r => by
    have ihl := optimize_idem l
    have ihr := optimize_idem r
    rw [optimize_binary]
    rcases binaryFoldStep_cases (ASTOptimizer.optimize l) op (ASTOptimizer.optimize r) with ⟨v, hv⟩ | hb
    · rw [hv]; rfl
    · rw [hb, optimize_binary, ihl, ihr, hb]
  | .Unary op o => by
    have iho := optimize_idem o
    rw [optimize_unary]
    rcases unaryFoldStep_cases op (ASTOptimizer.optimize o) with ⟨v, hv⟩ | hu
    · rw [hv]; rfl
    · rw [hu, optimize_unary, iho, hu]
  | .If c thn els => by
    have ihc := optimize_idem c
    have ihthn := optimizeList_idem thn
    rw [optimize_if]
    cases els with
    | none =>
      generalize hC : ASTOptimizer.optimize c = C at ihc
      cases C <;>
        simp only [ASTOptimizer.ifFoldStep, optimize_if, optimizeElse, ihc, ihthn] <;>
        (try (rename_i b; cases b <;>
          simp only [ASTOptimizer.ifFoldStep, optimize_if, optimizeElse, ihc, ihthn]))
    | some es =>
      have ihes := optimizeList_idem es
      generalize hC : ASTOptimizer.optimize c = C at ihc
      cases C <;>
        simp only [ASTOptimizer.ifFoldStep, optimize_if, optimizeElse, ihc, ihthn, ihes] <;>
        (try (rename_i b; cases b <;>
          simp only [ASTOptimizer.ifFoldStep, optimize_if, optimizeElse, ihc, ihthn, ihes]))
  | .VarDecl a b c d => rfl
  | .Assignment a b => rfl
  | .FunctionDecl a b c => rfl
  | .ClassDecl a b c => rfl
  | .Return a => rfl
  | .While a b => rfl
  | .Call a b => rfl
  | .MemberAccess a b => rfl
  | .Number a => rfl
  | .String a => rfl
  | .Boolean a => rfl
  | .Identifier a => rfl
  | .TemporalAccess a b => rfl
  | .Pipeline a => rfl
  | .Match a b => rfl

theorem optimizeList_idem : (ts : List ASTNode) →
    ASTOptimizer.optimizeList (ASTOptimizer.optimizeList ts) = ASTOptimizer.optimizeList ts
  | [] => rfl
  | t :: rest => by
    simp only [ASTOptimizer.optimizeList]
    rw [optimize_idem t, optimizeList_idem rest]

end

theorem remaining_advance (s : Lexer) : (s.advance).remaining = s.remaining.tail := by
  unfold Lexer.advance
  (repeat' split) <;> simp_all

theorem remaining_advanceBy (s : Lexer) (n : Nat) :
    (s.advanceBy n).remaining = s.remaining.drop n := by
  induction n generalizing s with
  | zero => simp [Lexer.advanceBy]
  | succ n ih =>
    simp only [Lexer.advanceBy, ih, remaining_advance]
    rw [← List.drop_one, List.drop_drop, Nat.add_comm]

theorem remaining_skip_whitespace (s : Lexer) :
    (s.skip_whitespace).remaining = s.remaining.drop (s.remaining.takeWhile isWsChar).length := by
  simp [Lexer.skip_whitespace, remaining_advanceBy]

theorem remaining_read_identifier (s : Lexer) :
    (s.read_identifier).2.remaining =
      s.remaining.drop (s.remaining.takeWhile isIdentChar).length := by
  simp [Lexer.read_identifier, remaining_advanceBy]

theorem remaining_read_number (s : Lexer) :
    (s.read_number).2.remaining =
      s.remaining.drop (s.remaining.takeWhile isNumChar).length := by
  simp [Lexer.read_number, remaining_advanceBy]

theorem remaining_read_string (s : Lexer) :
    (s.read_string).2.remaining =
      s.remaining.tail.drop (readStringAux s.remaining.tail).2 := by
  simp [Lexer.read_string, remaining_advanceBy, remaining_advance]

theorem remaining_handle_pragma (s : Lexer) (c : String) :
    (s.handle_pragma c).remaining = s.remaining := by
  unfold Lexer.handle_pragma
  split <;> rfl

theorem identStart_isIdent (c : Char) (h : isIdentStartChar c = true) :
    isIdentChar c = true := by
  simp only [isIdentStartChar, Bool.or_eq_true] at h
  rcases h with h | h
  · simp [isIdentChar, Char.isAlphanum, h]
  · simp [isIdentChar, h]

theorem takeWhile_length_le (p : Char → Bool) (l : List Char) :
    (l.takeWhile p).length ≤ l.length := by
  induction l with
  | nil => simp
  | cons a l ih =>
    rw [List.takeWhile_cons]
    split
    · simpa using ih
    · simp

theorem takeWhile_cons_pos (p : Char → Bool) (c : Char) (rest : List Char) (h : p c = true) :
    1 ≤ ((c :: rest).takeWhile p).length := by
  simp [List.takeWhile_cons, h]

set_option maxHeartbeats 2000000 in
theorem lexStep_remaining_lt (s : Lexer) (h : s.remaining ≠ []) :
    (s.lexStep).2.remaining.length < s.remaining.length := by
  rcases hr : s.remaining with _ | ⟨c, rest⟩
  · exact absurd hr h
  · simp only [Lexer.lexStep, hr]
    by_cases h1 : isWsChar c = true
    · rw [if_pos h1]
      have hp := takeWhile_cons_pos isWsChar c rest h1
      have hle := takeWhile_length_le isWsChar (c :: rest)
      simp only [remaining_skip_whitespace, hr, List.length_drop, List.length_cons]
      omega
    rw [if_neg h1]
    by_cases h2 : c = '\n'
    · rw [if_pos h2]
      simp only [remaining_advance, hr, List.tail_cons, List.length_cons]
      omega
    rw [if_neg h2]
    by_cases h3 : c = '#'
    · rw [if_pos h3]
      have hadv : s.advance.remaining = rest := by rw [remaining_advance, hr, List.tail_cons]
      rcases hrest : rest with _ | ⟨c2, rest2⟩ <;> rw [hadv, hrest]
      · simp only [remaining_advanceBy, hadv, hrest, List.takeWhile_nil, List.length_nil,
          List.drop_nil, List.length_cons]
        omega
      · split
        next tail hpcons =>
          have hc2 : c2 = 'p' := by injection hpcons
          split
          · simp only [remaining_handle_pragma, remaining_read_identifier,
              remaining_skip_whitespace, hadv, hrest, List.length_drop, List.length_cons]
            have := takeWhile_length_le isIdentChar (c2 :: rest2)
            omega
          · simp only [remaining_read_identifier, hadv, hrest, List.length_drop,
              List.length_cons]
            have hp := takeWhile_cons_pos isIdentChar c2 rest2 (by simp [hc2, isIdentChar])
            omega
        next =>
          simp only [remaining_advanceBy, hadv, hrest, List.length_drop, List.length_cons]
          have := takeWhile_length_le (fun ch => decide (ch ≠ '\n')) (c2 :: rest2)
          omega
    rw [if_neg h3]
    by_cases h4 : c = '+'
    · rw [if_pos h4]
      simp only [remaining_advance, hr, List.tail_cons, List.length_cons]
      omega
    rw [if_neg h4]
    by_cases h5 : c = '-'
    · rw [if_pos h5]
      have hadv2 : s.advance.remaining = rest := by rw [remaining_advance, hr, List.tail_cons]
      cases rest with
      | nil =>
        rw [hadv2]
        simp only [remaining_advance, hr, List.tail_cons, List.length_cons, List.length_nil,
          List.tail_nil]
        omega
      | cons c2 rest2 =>
        rw [hadv2]
        split <;>
          simp only [remaining_advance, hr, List.tail_cons, List.length_cons] <;>
          omega
    rw [if_neg h5]
    by_cases h6 : c = '*'
    · rw [if_pos h6]
      simp only [remaining_advance, hr, List.tail_cons, List.length_cons]
      omega
    rw [if_neg h6]
    by_cases h7 : c = '/'
    · rw [if_pos h7]
      simp only [remaining_advance, hr, List.tail_cons, List.length_cons]
      omega
    rw [if_neg h7]
    by_cases h8 : c = '%'
    · rw [if_pos h8]
      simp only [remaining_advance, hr, List.tail_cons, List.length_cons]
      omega
    rw [if_neg h8]
    by_cases h9 : c = '='
    · rw [if_pos h9]
      have hadv2 : s.advance.remaining = rest := by rw [remaining_advance, hr, List.tail_cons]
      cases rest with
      | nil =>
        rw [hadv2]
        simp only [remaining_advance, hr, List.tail_cons, List.length_cons, List.length_nil,
          List.tail_nil]
        omega
      | cons c2 rest2 =>
        rw [hadv2]
        split <;>
          simp only [remaining_advance, hr, List.tail_cons, List.length_cons] <;>
          omega
    rw [if_neg h9]
    by_cases h10 : c = '!'
    · rw [if_pos h10]
      have hadv2 : s.advance.remaining = rest := by rw [remaining_advance, hr, List.tail_cons]
      cases rest with
      | nil =>
        rw [hadv2]
        simp only [remaining_advance, hr, List.tail_cons, List.length_cons, List.length_nil,
          List.tail_nil]
        omega
      | cons c2 rest2 =>
        rw [hadv2]
        split <;>
          simp only [remaining_advance, hr, List.tail_cons, List.length_cons] <;>
          omega
    rw [if_neg h10]
    by_cases h11 : c = '<'
    · rw [if_pos h11]
      have hadv2 : s.advance.remaining = rest := by rw [remaining_advance, hr, List.tail_cons]
      cases rest with
      | nil =>
        rw [hadv2]
        simp only [remaining_advance, hr, List.tail_cons, List.length_cons, List.length_nil,
          List.tail_nil]
        omega
      | cons c2 rest2 =>
        rw [hadv2]
        split <;>
          simp only [remaining_advance, hr, List.tail_cons, List.length_cons] <;>
          omega
    rw [if_neg h11]
    by_cases h12 : c = '>'
    · rw [if_pos h12]
      have hadv2 : s.advance.remaining = rest := by rw [remaining_advance, hr, List.tail_cons]
      cases rest with
      | nil =>
        rw [hadv2]
        simp only [remaining_advance, hr, List.tail_cons, List.length_cons, List.length_nil,
          List.tail_nil]
        omega
      | cons c2 rest2 =>
        rw [hadv2]
        split <;>
          simp only [remaining_advance, hr, List.tail_cons, List.length_cons] <;>
          omega
    rw [if_neg h12]
    by_cases h13 : c = '&'
    · rw [if_pos h13]
      have hadv2 : s.advance.remaining = rest := by rw [remaining_advance, hr, List.tail_cons]
      cases rest with
      | nil =>
        rw [hadv2]
        simp only [remaining_advance, hr, List.tail_cons, List.length_cons, List.length_nil,
          List.tail_nil]
        omega
      | cons c2 rest2 =>
        rw [hadv2]
        split <;>
          simp only [remaining_advance, hr, List.tail_cons, List.length_cons] <;>
          omega
    rw [if_neg h13]
    by_cases h14 : c = '|'
    · rw [if_pos h14]
      have hadv2 : s.advance.remaining = rest := by rw [remaining_advance, hr, List.tail_cons]
      cases rest with
      | nil =>
        rw [hadv2]
        simp only [remaining_advance, hr, List.tail_cons, List.length_cons, List.length_nil,
          List.tail_nil]
        omega
      | cons c2 rest2 =>
        rw [hadv2]
        split <;>
          simp only [remaining_advance, hr, List.tail_cons, List.length_cons] <;>
          omega
    rw [if_neg h14]
    by_cases h15 : c = '('
    · rw [if_pos h15]
      simp only [remaining_advance, hr, List.tail_cons, List.length_cons]
      omega
    rw [if_neg h15]
    by_cases h16 : c = ')'
    · rw [if_pos h16]
      simp only [remaining_advance, hr, List.tail_cons, List.length_cons]
      omega
    rw [if_neg h16]
    by_cases h17 : c = '{'
    · rw [if_pos h17]
      simp only [remaining_advance, hr, List.tail_cons, List.length_cons]
      omega
    rw [if_neg h17]
    by_cases h18 : c = '}'
    · rw [if_pos h18]
      simp only [remaining_advance, hr, List.tail_cons, List.length_cons]
      omega
    rw [if_neg h18]
    by_cases h19 : c = '['
    · rw [if_pos h19]
      simp only [remaining_advance, hr, List.tail_cons, List.length_cons]
      omega
    rw [if_neg h19]
    by_cases h20 : c = ']'
    · rw [if_pos h20]
      simp only [remaining_advance, hr, List.tail_cons, List.length_cons]
      omega
    rw [if_neg h20]
    by_cases h21 : c = ','
    · rw [if_pos h21]
      simp only [remaining_advance, hr, List.tail_cons, List.length_cons]
      omega
    rw [if_neg h21]
    by_cases h22 : c = ';'
    · rw [if_pos h22]
      simp only [remaining_advance, hr, List.tail_cons, List.length_cons]
      omega
    rw [if_neg h22]
    by_cases h23 : c = ':'
    · rw [if_pos h23]
      simp only [remaining_advance, hr, List.tail_cons, List.length_cons]
      omega
    rw [if_neg h23]
    by_cases h24 : c = '.'
    · rw [if_pos h24]
      cases rest with
      | nil =>
        simp only [remaining_advance, hr, List.tail_cons, List.length_cons, List.length_nil]
        omega
      | cons c2 rest2 =>
        repeat' split
        all_goals
          first
            | (have hp := takeWhile_cons_pos isNumChar c (c2 :: rest2) (by simp [h24, isNumChar])
               have hle := takeWhile_length_le isNumChar (c :: c2 :: rest2)
               simp only [remaining_read_number, hr, List.length_drop, List.length_cons]
               omega)
            | (simp only [remaining_advance, hr, List.tail_cons, List.length_cons]
               omega)
    rw [if_neg h24]
    by_cases h25 : c = '?'
    · rw [if_pos h25]
      simp only [remaining_advance, hr, List.tail_cons, List.length_cons]
      omega
    rw [if_neg h25]
    by_cases h26 : c = '"'
    · rw [if_pos h26]
      simp only [remaining_read_string, hr, List.tail_cons, List.length_drop, List.length_cons]
      omega
    rw [if_neg h26]
    by_cases h27 : c.isDigit = true
    · rw [if_pos h27]
      have hp := takeWhile_cons_pos isNumChar c rest (by simp [isNumChar, h27])
      have hle := takeWhile_length_le isNumChar (c :: rest)
      simp only [remaining_read_number, hr, List.length_drop, List.length_cons]
      omega
    rw [if_neg h27]
    by_cases h28 : isIdentStartChar c = true
    · rw [if_pos h28]
      have hp := takeWhile_cons_pos isIdentChar c rest (identStart_isIdent c h28)
      have hle := takeWhile_length_le isIdentChar (c :: rest)
      simp only [remaining_read_identifier, hr, List.length_drop, List.length_cons]
      omega
    rw [if_neg h28]
    simp only [remaining_advance, hr, List.tail_cons, List.length_cons]
    omega

theorem tokenizeFuel_congr :
    ∀ (n m : Nat) (s : Lexer), s.remaining.length < n → s.remaining.length < m →
      Lexer.tokenizeFuel n s = Lexer.tokenizeFuel m s
  | n + 1, m + 1, s, hn, hm => by
    rcases hr : s.remaining with _ | ⟨c, rest⟩
    · simp only [Lexer.tokenizeFuel, hr]
    · simp only [Lexer.tokenizeFuel, hr]
      have hlt : (s.lexStep).2.remaining.length < s.remaining.length :=
        lexStep_remaining_lt s (by rw [hr]; exact List.cons_ne_nil c rest)
      rw [hr] at hlt hn hm
      have := tokenizeFuel_congr n m (s.lexStep).2 (by omega) (by omega)
      rw [this]

theorem tokenize_cons (s : Lexer) (h : s.remaining ≠ []) :
    Lexer.tokenize s =
      ((s.lexStep).1 ++ (Lexer.tokenize (s.lexStep).2).1, (Lexer.tokenize (s.lexStep).2).2) := by
  rcases hr : s.remaining with _ | ⟨c, rest⟩
  · exact absurd hr h
  · have hlt := lexStep_remaining_lt s h
    rw [hr] at hlt
    simp only [List.length_cons] at hlt
    unfold Lexer.tokenize
    rw [hr]
    simp only [List.length_cons]
    rw [show Lexer.tokenizeFuel (rest.length + 1 + 1) s =
        ((s.lexStep).1 ++ (Lexer.tokenizeFuel (rest.length + 1) (s.lexStep).2).1,
          (Lexer.tokenizeFuel (rest.length + 1) (s.lexStep).2).2) from by
      simp only [Lexer.tokenizeFuel, hr]]
    rw [tokenizeFuel_congr (rest.length + 1) ((s.lexStep).2.remaining.length + 1)
      (s.lexStep).2 (by omega) (by omega)]

theorem tokenize_emits_nothing (s s' : Lexer) (h : s.remaining ≠ [])
    (hstep : s.lexStep = ([], s')) : Lexer.tokenize s = Lexer.tokenize s' := by
  rw [tokenize_cons s h, hstep]
  simp

theorem diagnostics_advance (s : Lexer) : (s.advance).diagnostics = s.diagnostics := by
  unfold Lexer.advance
  (repeat' split) <;> rfl

theorem lexStep_comment (s : Lexer) (c : Char) (rest : List Char)
    (hs : s.remaining = '#' :: c :: rest) (hc : c ≠ 'p') :
    s.lexStep =
      ([], (s.advance).advanceBy (((c :: rest).takeWhile (fun ch => ch ≠ '\n'))).length) := by
  have hadv : s.advance.remaining = c :: rest := by rw [remaining_advance, hs, List.tail_cons]
  simp only [Lexer.lexStep, hs]
  rw [if_neg (by decide), if_neg (by decide), if_pos trivial, hadv]
  split
  next tail hpat =>
    exact absurd (by injection hpat) hc
  next => rfl

theorem lexStep_hash_p (s : Lexer) (rest : List Char)
    (hs : s.remaining = '#' :: 'p' :: rest)
    (hident : (s.advance.read_identifier).1 ≠ "pragma") :
    s.lexStep = ([], (s.advance.read_identifier).2) := by
  have hadv : s.advance.remaining = 'p' :: rest := by rw [remaining_advance, hs, List.tail_cons]
  simp only [Lexer.lexStep, hs]
  rw [if_neg (by decide), if_neg (by decide), if_pos trivial, hadv]
  split
  next tail hpat =>
    rw [if_neg hident]
  next tail hpat =>
    exact absurd (hpat rest rfl) (by simp)

theorem lexStep_lone_ampersand (s : Lexer) (c : Char) (rest : List Char)
    (hs : s.remaining = '&' :: c :: rest) (hc : c ≠ '&') :
    s.lexStep = ([], s.advance) := by
  have hadv : s.advance.remaining = c :: rest := by rw [remaining_advance, hs, List.tail_cons]
  simp only [Lexer.lexStep, hs]
  rw [if_neg (by decide), if_neg (by decide), if_neg (by decide), if_neg (by decide),
    if_neg (by decide), if_neg (by decide), if_neg (by decide), if_neg (by decide),
    if_neg (by decide), if_neg (by decide), if_neg (by decide), if_neg (by decide),
    if_pos trivial, hadv]
  split
  next tail hpat =>
    exact absurd (by injection hpat) hc
  next => rfl

theorem lexStep_unknown (s : Lexer) (c : Char) (rest : List Char)
    (hs : s.remaining = c :: rest)
    (hws : isWsChar c = false) (h01 : c ≠ '\n') (h02 : c ≠ '#') (h03 : c ≠ '+')
    (h04 : c ≠ '-') (h05 : c ≠ '*') (h06 : c ≠ '/') (h07 : c ≠ '%') (h08 : c ≠ '=')
    (h09 : c ≠ '!') (h10 : c ≠ '<') (h11 : c ≠ '>') (h12 : c ≠ '&') (h13 : c ≠ '|')
    (h14 : c ≠ '(') (h15 : c ≠ ')') (h16 : c ≠ '{') (h17 : c ≠ '}') (h18 : c ≠ '[')
    (h19 : c ≠ ']') (h20 : c ≠ ',') (h21 : c ≠ ';') (h22 : c ≠ ':') (h23 : c ≠ '.')
    (h24 : c ≠ '?') (h25 : c ≠ '"') (hdig : c.isDigit = false)
    (hid : isIdentStartChar c = false) :
    s.lexStep = ([], { s.advance with diagnostics := (s.advance).diagnostics ++
      ["Unexpected character: " ++ String.mk [c] ++ " at line " ++ toString s.line ++
        ", column " ++ toString s.column] }) := by
  simp only [Lexer.lexStep, hs]
  rw [if_neg (by simp [hws]), if_neg h01, if_neg h02, if_neg h03, if_neg h04, if_neg h05,
    if_neg h06, if_neg h07, if_neg h08, if_neg h09, if_neg h10, if_neg h11, if_neg h12,
    if_neg h13, if_neg h14, if_neg h15, if_neg h16, if_neg h17, if_neg h18, if_neg h19,
    if_neg h20, if_neg h21, if_neg h22, if_neg h23, if_neg h24, if_neg h25,
    if_neg (by simp [hdig]), if_neg (by simp [hid])]

/-- C8 (amended): in `Lexer::tokenize`, a `#` followed by any character other
than `p` begins a line comment consumed up to the next newline and emits no
token; a `#` followed by `p` instead consumes one identifier, and when that
identifier is not exactly `pragma` the identifier alone is discarded and
lexing resumes immediately after it (the rest of the line is still
tokenized). -/
theorem C8_hash_handling :
    (∀ (s : Lexer) (c : Char) (rest : List Char),
      s.remaining = '#' :: c :: rest → c ≠ 'p' →
      Lexer.tokenize s =
        Lexer.tokenize ((s.advance).advanceBy
          (((c :: rest).takeWhile (fun ch => ch ≠ '\n'))).length))
  ∧ (∀ (s : Lexer) (rest : List Char),
      s.remaining = '#' :: 'p' :: rest →
      (s.advance.read_identifier).1 ≠ "pragma" →
      Lexer.tokenize s = Lexer.tokenize (s.advance.read_identifier).2) := by
  constructor
  · intro s c rest hs hc
    exact tokenize_emits_nothing _ _ (by rw [hs]; simp) (lexStep_comment s c rest hs hc)
  · intro s rest hs hident
    exact tokenize_emits_nothing _ _ (by rw [hs]; simp) (lexStep_hash_p s rest hs hident)

/-- Witness for C8 at the concrete input `#foo 1`. -/
theorem C8_hash_handling_witness :
    Lexer.tokenize (Lexer.new "#foo 1") =
      Lexer.tokenize ((Lexer.new "#foo 1").advance.advanceBy
        ((('f' :: "oo 1".data).takeWhile (fun ch => ch ≠ '\n'))).length) :=
  C8_hash_handling.1 (Lexer.new "#foo 1") 'f' "oo 1".data (by decide) (by decide)

/-- C8 counterexample: the line `#print 5` does NOT lex as a comment — the
lexer consumes `#print`, then tokenizes the rest of the line, emitting
`Number 5`; the claim would require the token list `[EOF]`. -/
theorem C8_counterexample :
    tokensOf "#print 5" = [.Number 5, .EOF] ∧ tokensOf "#print 5" ≠ [.EOF] := by
  constructor <;> decide

/-- C10: an `&` not followed by a second `&` is consumed by `Lexer::tokenize`
with no token and no diagnostic (the token stream and diagnostics equal those
of lexing from just past the `&`), whereas a character outside every
recognized class is skipped after pushing an `Unexpected character: ..`
diagnostic with its line and column. -/
theorem C10_ampersand_silent :
    (∀ (s : Lexer) (c : Char) (rest : List Char),
      s.remaining = '&' :: c :: rest → c ≠ '&' →
      s.lexStep = ([], s.advance) ∧ (s.advance).diagnostics = s.diagnostics ∧
        Lexer.tokenize s = Lexer.tokenize (s.advance))
  ∧ (∀ (s : Lexer) (c : Char) (rest : List Char),
      s.remaining = c :: rest →
      isWsChar c = false → c ≠ '\n' → c ≠ '#' → c ≠ '+' → c ≠ '-' → c ≠ '*' → c ≠ '/' →
      c ≠ '%' → c ≠ '=' → c ≠ '!' → c ≠ '<' → c ≠ '>' → c ≠ '&' → c ≠ '|' → c ≠ '(' →
      c ≠ ')' → c ≠ '{' → c ≠ '}' → c ≠ '[' → c ≠ ']' → c ≠ ',' → c ≠ ';' → c ≠ ':' →
      c ≠ '.' → c ≠ '?' → c ≠ '"' → c.isDigit = false → isIdentStartChar c = false →
      s.lexStep = ([], { s.advance with diagnostics := (s.advance).diagnostics ++
        ["Unexpected character: " ++ String.mk [c] ++ " at line " ++ toString s.line ++
          ", column " ++ toString s.column] })) := by
  constructor
  · intro s c rest hs hc
    refine ⟨lexStep_lone_ampersand s c rest hs hc, diagnostics_advance s, ?_⟩
    exact tokenize_emits_nothing _ _ (by rw [hs]; simp) (lexStep_lone_ampersand s c rest hs hc)
  · intro s c rest hs hws h01 h02 h03 h04 h05 h06 h07 h08 h09 h10 h11 h12 h13 h14 h15 h16
      h17 h18 h19 h20 h21 h22 h23 h24 h25 hdig hid
    exact lexStep_unknown s c rest hs hws h01 h02 h03 h04 h05 h06 h07 h08 h09 h10 h11 h12
      h13 h14 h15 h16 h17 h18 h19 h20 h21 h22 h23 h24 h25 hdig hid

/-- Witness for C10 at the concrete inputs `&b` and `@x`. -/
theorem C10_ampersand_silent_witness :
    ((Lexer.new "&b").lexStep = ([], (Lexer.new "&b").advance) ∧
      ((Lexer.new "&b").advance).diagnostics = (Lexer.new "&b").diagnostics ∧
      Lexer.tokenize (Lexer.new "&b") = Lexer.tokenize ((Lexer.new "&b").advance)) ∧
    (Lexer.new "@x").lexStep = ([], { (Lexer.new "@x").advance with
      diagnostics := ((Lexer.new "@x").advance).diagnostics ++
        ["Unexpected character: " ++ String.mk ['@'] ++ " at line " ++ toString (Lexer.new "@x").line ++
          ", column " ++ toString (Lexer.new "@x").column] }) :=
  ⟨C10_ampersand_silent.1 (Lexer.new "&b") 'b' [] (by decide) (by decide),
   C10_ampersand_silent.2 (Lexer.new "@x") '@' ['x'] (by decide) (by decide) (by decide) (by decide)
     (by decide) (by decide) (by decide) (by decide) (by decide) (by decide) (by decide)
     (by decide) (by decide) (by decide) (by decide) (by decide) (by decide) (by decide)
     (by decide) (by decide) (by decide) (by decide) (by decide) (by decide) (by decide)
     (by decide) (by decide) (by decide) (by decide)⟩

-- C2 step lemma development
theorem compile_match_nil (expr : ASTNode) :
    PatternMatcher.compile_match expr [] = .error "Match expression must have at least one case" := rfl

theorem compile_match_cons (expr p : ASTNode) (b : List ASTNode)
    (rest : List (ASTNode × List ASTNode)) (r : ASTNode)
    (hr : PatternMatcher.compile_match expr rest = .ok r) :
    PatternMatcher.compile_match expr ((p, b) :: rest) =
      .ok (.If (PatternMatcher.caseCondition expr p) b (some [r])) := by
  match rest with
  | [] => rw [compile_match_nil] at hr; exact absurd hr (by simp)
  | (q, c) :: rest' =>
    unfold PatternMatcher.compile_match at hr ⊢
    simp only [List.isEmpty_cons, List.foldr_cons, Bool.false_eq_true, if_false,
      Except.ok.injEq] at hr ⊢
    subst hr
    simp

theorem compile_match_single (expr p : ASTNode) (b : List ASTNode) :
    PatternMatcher.compile_match expr [(p, b)] =
      .ok (.If (PatternMatcher.caseCondition expr p) b none) := rfl

/-- C2: `PatternMatcher::compile_match` lowers a non-empty case list to a
right-nested `If` chain built from the last case inward: the head case becomes
the outermost `If` whose condition is `scrutinee == pattern` (or `true` for
the identifier pattern `default`) and whose else-branch wraps the lowering of
the remaining cases, so earlier cases sit outside later ones (first match
wins); for the cases 200/404/default with scrutinee 200 the outermost
condition is `200 == 200` guarding the 200-case body, with `default`
innermost. -/
theorem C2_match_lowering :
    (∀ (expr p : ASTNode) (b : List ASTNode),
      PatternMatcher.compile_match expr [(p, b)] =
        .ok (.If (PatternMatcher.caseCondition expr p) b none))
  ∧ (∀ (expr p : ASTNode) (b : List ASTNode) (rest : List (ASTNode × List ASTNode)) (r : ASTNode),
      PatternMatcher.compile_match expr rest = .ok r →
      PatternMatcher.compile_match expr ((p, b) :: rest) =
        .ok (.If (PatternMatcher.caseCondition expr p) b (some [r])))
  ∧ (∀ name : String, name ≠ "default" →
      PatternMatcher.caseCondition (.Number 200) (.Identifier name) =
        .Binary (.Number 200) "==" (.Identifier name))
  ∧ (∀ expr : ASTNode, PatternMatcher.caseCondition expr (.Identifier "default") = .Boolean true)
  ∧ (∀ okBody nfBody defBody : List ASTNode,
      PatternMatcher.compile_match (.Number 200)
        [(.Number 200, okBody), (.Number 404, nfBody), (.Identifier "default", defBody)] =
        .ok (.If (.Binary (.Number 200) "==" (.Number 200)) okBody
          (some [.If (.Binary (.Number 200) "==" (.Number 404)) nfBody
            (some [.If (.Boolean true) defBody none])]))) := by
  refine ⟨fun expr p b => compile_match_single expr p b,
    fun expr p b rest r hr => compile_match_cons expr p b rest r hr,
    fun name h => ?_, fun expr => ?_, fun okBody nfBody defBody => rfl⟩
  · simp [PatternMatcher.caseCondition, h]
  · simp [PatternMatcher.caseCondition]

/-- Witness for C2's cons step at concrete cases. -/
theorem C2_match_lowering_witness :
    PatternMatcher.compile_match (.Identifier "s")
        [(.Number 1, [.Number 10]), (.Identifier "default", [.Number 20])] =
      .ok (.If (PatternMatcher.caseCondition (.Identifier "s") (.Number 1)) [.Number 10]
        (some [.If (PatternMatcher.caseCondition (.Identifier "s") (.Identifier "default"))
          [.Number 20] none])) :=
  C2_match_lowering.2.1 (.Identifier "s") (.Number 1) [.Number 10]
    [(.Identifier "default", [.Number 20])] _ rfl

-- C3
/-- C3: `PipelineProcessor::process` threads the first expression through the
remaining stages as the sole call argument: appending a stage `eN` wraps the
previous result `r` as `Call(eN, [r])`, and `a | f | g` lowers to
`Call(g, [Call(f, [a])])`. -/
theorem C3_pipeline_lowering :
    (∀ (e0 eN : ASTNode) (rest : List ASTNode) (r : ASTNode),
      PipelineProcessor.process (e0 :: rest) = .ok r →
      PipelineProcessor.process (e0 :: (rest ++ [eN])) = .ok (.Call eN [r]))
  ∧ (∀ a f g : ASTNode,
      PipelineProcessor.process [a, f, g] = .ok (.Call g [.Call f [a]])) := by
  constructor
  · intro e0 eN rest r hr
    simp only [PipelineProcessor.process, Except.ok.injEq] at hr
    simp only [PipelineProcessor.process, List.foldl_append, hr, List.foldl_cons,
      List.foldl_nil]
  · intro a f g
    rfl

/-- Witness for C3's append step at concrete identifiers. -/
theorem C3_pipeline_lowering_witness :
    PipelineProcessor.process [ASTNode.Identifier "a", ASTNode.Identifier "f",
      ASTNode.Identifier "g", ASTNode.Identifier "h"] =
      .ok (.Call (.Identifier "h")
        [.Call (.Identifier "g") [.Call (.Identifier "f") [.Identifier "a"]]]) :=
  C3_pipeline_lowering.1 (.Identifier "a") (.Identifier "h")
    [.Identifier "f", .Identifier "g"] _ rfl

-- C4
/-- C4: `ASTOptimizer::optimize` folds a `Binary` node whose operands are
`Number` literals and whose operator is one of `+ - * /` into the `Number`
literal of the arithmetic result (`2 + 3 * 4` becomes `Number 14`), while a
division whose right operand is the literal `0.0` is left un-folded. -/
theorem C4_constant_folding :
    (∀ l r : FNum, ASTOptimizer.optimize (.Binary (.Number l) "+" (.Number r)) = .Number (l.add r))
  ∧ (∀ l r : FNum, ASTOptimizer.optimize (.Binary (.Number l) "-" (.Number r)) = .Number (l.sub r))
  ∧ (∀ l r : FNum, ASTOptimizer.optimize (.Binary (.Number l) "*" (.Number r)) = .Number (l.mul r))
  ∧ (∀ l r : FNum, r ≠ 0 →
      ASTOptimizer.optimize (.Binary (.Number l) "/" (.Number r)) = .Number (l.div r))
  ∧ (∀ l : FNum, ASTOptimizer.optimize (.Binary (.Number l) "/" (.Number 0)) =
      .Binary (.Number l) "/" (.Number 0))
  ∧ ASTOptimizer.optimize (.Binary (.Number 2) "+" (.Binary (.Number 3) "*" (.Number 4))) =
      .Number 14 := by
  refine ⟨fun l r => rfl, fun l r => rfl, fun l r => rfl, fun l r h => ?_, fun l => ?_, rfl⟩
  · show ASTOptimizer.binaryFoldStep (.Number l) "/" (.Number r) = .Number (l.div r)
    simp [ASTOptimizer.binaryFoldStep, h]
  · show ASTOptimizer.binaryFoldStep (.Number l) "/" (.Number 0) = .Binary (.Number l) "/" (.Number 0)
    simp [ASTOptimizer.binaryFoldStep]

/-- Witness for C4's division case at `6 / 3`. -/
theorem C4_constant_folding_witness :
    ASTOptimizer.optimize (.Binary (.Number 6) "/" (.Number 3)) = .Number 2 := by
  exact (C4_constant_folding.2.2.2.1 6 3 (by decide)).trans (congrArg ASTNode.Number (by decide))

-- C5 code_bug theorem
/-- C5 (code behaviour at the failing input): `ASTOptimizer::optimize` does
NOT replace an `If` with a boolean-literal condition by the taken branch; the
node comes back as the same `If`, with both branches still present. -/
theorem C5_if_not_replaced :
    ASTOptimizer.optimize (.If (.Boolean true) [.Number 1] (some [.Number 2])) =
      .If (.Boolean true) [.Number 1] (some [.Number 2]) := rfl

-- C9
theorem find_desc_max (τ : Nat) :
    ∀ (l : List (Nat × FluxValue)), l.Pairwise (fun a b => b.1 ≤ a.1) →
      ∀ e, l.find? (fun x => x.1 ≤ τ) = some e →
        e.1 ≤ τ ∧ e ∈ l ∧ ∀ x ∈ l, x.1 ≤ τ → x.1 ≤ e.1 := by
  intro l
  induction l with
  | nil => intro _ e he; simp at he
  | cons a l ih =>
    intro hp e he
    rw [List.find?_cons] at he
    split at he
    next ha =>
      simp only [Option.some.injEq] at he
      subst he
      refine ⟨by simpa using ha, List.mem_cons_self a l, ?_⟩
      intro x hx _
      rcases List.mem_cons.mp hx with h | h
      · exact h ▸ Nat.le_refl _
      · exact (List.pairwise_cons.mp hp).1 x h
    next ha =>
      have hp' := (List.pairwise_cons.mp hp).2
      obtain ⟨h1, h2, h3⟩ := ih hp' e he
      refine ⟨h1, List.mem_cons_of_mem a h2, ?_⟩
      intro x hx hxτ
      rcases List.mem_cons.mp hx with h | h
      · exact absurd (h ▸ hxτ) (by simpa using ha)
      · exact h3 x h hxτ

/-- C9: `TemporalManager::get_at_time` returns `none` when the variable has
no timeline; on a timeline in non-decreasing timestamp order it returns
`none` exactly when every entry's timestamp exceeds the query time, and
otherwise `some` of the value of an entry whose timestamp is the greatest
timestamp `≤ τ`. -/
theorem C9_get_at_time_correct (m : TemporalManager) (name : String) (τ : Nat) :
    ((m.timelines.find? (fun p => p.1 = name)) = none → m.get_at_time name τ = none)
  ∧ (∀ tl, (m.timelines.find? (fun p => p.1 = name)).map Prod.snd = some tl →
      tl.Pairwise (fun a b => a.1 ≤ b.1) →
      ((m.get_at_time name τ = none ↔ ∀ e ∈ tl, τ < e.1)
       ∧ (∀ v, m.get_at_time name τ = some v →
           ∃ t, (t, v) ∈ tl ∧ t ≤ τ ∧ ∀ e ∈ tl, e.1 ≤ τ → e.1 ≤ t))) := by
  constructor
  · intro h
    unfold TemporalManager.get_at_time
    rw [h]
    rfl
  · intro tl htl hsort
    unfold TemporalManager.get_at_time
    rw [htl]
    have hsortrev : tl.reverse.Pairwise (fun a b => b.1 ≤ a.1) := by
      rw [List.pairwise_reverse]
      exact hsort
    constructor
    · rw [Option.map_eq_none', List.find?_eq_none]
      constructor
      · intro h e he
        simpa using h e (List.mem_reverse.mpr he)
      · intro h e he
        simpa using h e (List.mem_reverse.mp he)
    · intro v hv
      rw [Option.map_eq_some'] at hv
      obtain ⟨e, he, hev⟩ := hv
      obtain ⟨h1, h2, h3⟩ := find_desc_max τ tl.reverse hsortrev e he
      refine ⟨e.1, ?_, h1, ?_⟩
      · rw [← hev]
        exact List.mem_reverse.mp h2
      · intro x hx hxτ
        exact h3 x (List.mem_reverse.mpr hx) hxτ

/-- Witness for C9 on the timeline `[(0, 1), (2, 2)]` queried at time 1. -/
theorem C9_get_at_time_witness :
    (TemporalManager.get_at_time ⟨[("x", [(0, .Number 1), (2, .Number 2)])], 0⟩ "x" 1 = none ↔
      ∀ e ∈ [((0:Nat), FluxValue.Number 1), (2, FluxValue.Number 2)], 1 < e.1) ∧
    (∀ v, TemporalManager.get_at_time ⟨[("x", [(0, .Number 1), (2, .Number 2)])], 0⟩ "x" 1 = some v →
      ∃ t, (t, v) ∈ [((0:Nat), FluxValue.Number 1), (2, FluxValue.Number 2)] ∧ t ≤ 1 ∧
        ∀ e ∈ [((0:Nat), FluxValue.Number 1), (2, FluxValue.Number 2)], e.1 ≤ 1 → e.1 ≤ t) :=
  (C9_get_at_time_correct ⟨[("x", [(0, .Number 1), (2, .Number 2)])], 0⟩ "x" 1).2
    [(0, .Number 1), (2, .Number 2)] rfl (by simp)

theorem tableLookup_append_left (t1 t2 : List (String × Variable)) (x : String) (v : Variable)
    (h : tableLookup t1 x = some v) : tableLookup (t1 ++ t2) x = some v := by
  unfold tableLookup at h ⊢
  rw [List.find?_append]
  rcases hf : t1.find? (fun p => p.1 = x) with _ | pr
  · rw [hf] at h; simp at h
  · rw [hf] at h
    rw [hf]
    exact h

theorem find?_isSome_false (t : List (String × Variable)) (k : String)
    (h : (tableLookup t k).isSome = false) :
    (t.find? (fun p => p.1 = k)).isSome = false := by
  unfold tableLookup at h
  rcases hf : t.find? (fun p => p.1 = k) with _ | pr
  · rw [hf]; rfl
  · rw [hf] at h
    simp at h

theorem tableInsert_absent (t : List (String × Variable)) (k : String) (v : Variable)
    (h : (tableLookup t k).isSome = false) : tableInsert t k v = t ++ [(k, v)] := by
  unfold tableInsert
  rw [if_neg (by simp [find?_isSome_false t k h])]

theorem tableLookup_insert_self (t : List (String × Variable)) (k : String) (v : Variable)
    (h : (tableLookup t k).isSome = false) : tableLookup (tableInsert t k v) k = some v := by
  rw [tableInsert_absent t k v h]
  unfold tableLookup
  rw [List.find?_append]
  rcases hf : t.find? (fun p => p.1 = k) with _ | pr
  · rw [hf]
    simp
  · have := find?_isSome_false t k h
    rw [hf] at this
    simp at this

mutual

theorem visit_preserves : (t : ASTNode) → ∀ (a : SemanticAnalyzer) (x : String) (v : Variable),
    tableLookup a.symbol_table x = some v →
    tableLookup (a.visit t).symbol_table x = some v
  | .Program stmts => by
    intro a x v h
    simp only [SemanticAnalyzer.visit]
    exact visitList_preserves stmts a x v h
  | .VarDecl name value ic it => by
    intro a x v h
    simp only [SemanticAnalyzer.visit]
    split
    · exact h
    next hcond =>
      refine visit_preserves value _ x v ?_
      have hxk : x ≠ name := by
        intro he
        rw [he] at h
        rw [h] at hcond
        simp at hcond
      show tableLookup (tableInsert a.symbol_table name _) x = some v
      rw [tableInsert_absent _ _ _ (by simpa using hcond)]
      exact tableLookup_append_left _ _ x v h
  | .Assignment name value => by
    intro a x v h
    simp only [SemanticAnalyzer.visit]
    split
    next var hvar =>
      split
      · exact h
      · split
        · exact h
        · exact visit_preserves value a x v h
    next hvar => exact visit_preserves value _ x v h
  | .TemporalAccess var ts => by
    intro a x v h
    simp only [SemanticAnalyzer.visit]
    split
    next entry hvar =>
      split
      · exact visit_preserves ts a x v h
      · exact visit_preserves ts _ x v h
    next hvar => exact visit_preserves ts _ x v h
  | .FunctionDecl nm ps body => by
    intro a x v h
    simp only [SemanticAnalyzer.visit]
    exact visitList_preserves body _ x v h
  | .Binary l op r => by
    intro a x v h
    simp only [SemanticAnalyzer.visit]
    exact visit_preserves r _ x v (visit_preserves l a x v h)
  | .Call callee args => by
    intro a x v h
    simp only [SemanticAnalyzer.visit]
    exact visitList_preserves args _ x v (visit_preserves callee a x v h)
  | .Pipeline exprs => by
    intro a x v h
    simp only [SemanticAnalyzer.visit]
    exact visitList_preserves exprs a x v h
  | .ClassDecl nm sup ms => fun a x v h => h
  | .Return e => fun a x v h => h
  | .If c t e => fun a x v h => h
  | .While c b => fun a x v h => h
  | .Unary op o => fun a x v h => h
  | .MemberAccess o p => fun a x v h => h
  | .Number n => fun a x v h => h
  | .String s => fun a x v h => h
  | .Boolean b => fun a x v h => h
  | .Identifier n => fun a x v h => h
  | .Match e cs => fun a x v h => h

theorem visitList_preserves : (ts : List ASTNode) → ∀ (a : SemanticAnalyzer) (x : String) (v : Variable),
    tableLookup a.symbol_table x = some v →
    tableLookup (a.visitList ts).symbol_table x = some v
  | [] => fun a x v h => h
  | t :: rest => by
    intro a x v h
    simp only [SemanticAnalyzer.visitList]
    exact visitList_preserves rest _ x v (visit_preserves t a x v h)

end

mutual

theorem visit_errors_mem : (t : ASTNode) → ∀ (a : SemanticAnalyzer) (msg : String),
    msg ∈ a.errors → msg ∈ (a.visit t).errors
  | .Program stmts => by
    intro a msg h
    simp only [SemanticAnalyzer.visit]
    exact visitList_errors_mem stmts a msg h
  | .VarDecl name value ic it => by
    intro a msg h
    simp only [SemanticAnalyzer.visit]
    split
    · exact List.mem_append_left _ h
    · exact visit_errors_mem value _ msg h
  | .Assignment name value => by
    intro a msg h
    simp only [SemanticAnalyzer.visit]
    split
    next var hvar =>
      split
      · exact List.mem_append_left _ h
      · split
        · exact List.mem_append_left _ h
        · exact visit_errors_mem value a msg h
    next hvar =>
      exact visit_errors_mem value _ msg (List.mem_append_left _ h)
  | .TemporalAccess var ts => by
    intro a msg h
    simp only [SemanticAnalyzer.visit]
    split
    next entry hvar =>
      split
      · exact visit_errors_mem ts a msg h
      · exact visit_errors_mem ts _ msg (List.mem_append_left _ h)
    next hvar =>
      exact visit_errors_mem ts _ msg (List.mem_append_left _ h)
  | .FunctionDecl nm ps body => by
    intro a msg h
    simp only [SemanticAnalyzer.visit]
    exact visitList_errors_mem body _ msg h
  | .Binary l op r => by
    intro a msg h
    simp only [SemanticAnalyzer.visit]
    exact visit_errors_mem r _ msg (visit_errors_mem l a msg h)
  | .Call callee args => by
    intro a msg h
    simp only [SemanticAnalyzer.visit]
    exact visitList_errors_mem args _ msg (visit_errors_mem callee a msg h)
  | .Pipeline exprs => by
    intro a msg h
    simp only [SemanticAnalyzer.visit]
    exact visitList_errors_mem exprs a msg h
  | .ClassDecl nm sup ms => fun a msg h => h
  | .Return e => fun a msg h => h
  | .If c t e => fun a msg h => h
  | .While c b => fun a msg h => h
  | .Unary op o => fun a msg h => h
  | .MemberAccess o p => fun a msg h => h
  | .Number n => fun a msg h => h
  | .String s => fun a msg h => h
  | .Boolean b => fun a msg h => h
  | .Identifier n => fun a msg h => h
  | .Match e cs => fun a msg h => h

theorem visitList_errors_mem : (ts : List ASTNode) → ∀ (a : SemanticAnalyzer) (msg : String),
    msg ∈ a.errors → msg ∈ (a.visitList ts).errors
  | [] => fun a msg h => h
  | t :: rest => by
    intro a msg h
    simp only [SemanticAnalyzer.visitList]
    exact visitList_errors_mem rest _ msg (visit_errors_mem t a msg h)

end

theorem visitList_append (a : SemanticAnalyzer) (l1 l2 : List ASTNode) :
    a.visitList (l1 ++ l2) = (a.visitList l1).visitList l2 := by
  induction l1 generalizing a with
  | nil => rfl
  | cons t rest ih =>
    simp only [List.cons_append, SemanticAnalyzer.visitList]
    exact ih _

/-- C6 (amended): for every program `const x = E1; ...; x = E2` in which `x`
is not declared before the `const` declaration, `SemanticAnalyzer::analyze`
returns the error variant and the diagnostics contain
`Cannot reassign to const variable 'x'`. -/
theorem C6_const_reassignment :
    ∀ (pre mid post : List ASTNode) (x : String) (e1 e2 : ASTNode) (tmp : Bool),
    tableLookup ((SemanticAnalyzer.new).visitList pre).symbol_table x = none →
    ∃ errs, (SemanticAnalyzer.new).analyze
        (.Program (pre ++ [.VarDecl x e1 true tmp] ++ mid ++ [.Assignment x e2] ++ post)) =
        .error errs ∧
      ("Cannot reassign to const variable '" ++ x ++ "'") ∈ errs := by
  intro pre mid post x e1 e2 tmp hx
  have hIsSome : (tableLookup ((SemanticAnalyzer.new).visitList pre).symbol_table x).isSome = false := by
    rw [hx]; rfl
  have key : ("Cannot reassign to const variable '" ++ x ++ "'") ∈
      ((SemanticAnalyzer.new).visit
        (.Program (pre ++ [.VarDecl x e1 true tmp] ++ mid ++ [.Assignment x e2] ++ post))).errors := by
    show ("Cannot reassign to const variable '" ++ x ++ "'") ∈
      ((SemanticAnalyzer.new).visitList
        (pre ++ [.VarDecl x e1 true tmp] ++ mid ++ [.Assignment x e2] ++ post)).errors
    rw [visitList_append, visitList_append, visitList_append, visitList_append]
    have hsingle : ((SemanticAnalyzer.new).visitList pre).visitList [ASTNode.VarDecl x e1 true tmp] =
        ((SemanticAnalyzer.new).visitList pre).visit (ASTNode.VarDecl x e1 true tmp) := rfl
    rw [hsingle]
    -- compute the VarDecl visit: x is absent, so the const entry is inserted
    rw [show ((SemanticAnalyzer.new).visitList pre).visit (ASTNode.VarDecl x e1 true tmp) =
        (let a0 := (SemanticAnalyzer.new).visitList pre
         let var : Variable :=
           { name := x
             flux_type := if tmp then .Temporal (infer_type a0 e1) else infer_type a0 e1
             is_const := true
             is_temporal := tmp
             is_frozen := false
             timeline := [(a0.timestamp, infer_type a0 e1)] }
         let a1 := { a0 with symbol_table := tableInsert a0.symbol_table x var }
         let a2 := a1.visit e1
         { a2 with timestamp := a2.timestamp + 1 }) from by
      simp only [SemanticAnalyzer.visit]
      rw [if_neg (by simp [hIsSome])]]
    set a0 := (SemanticAnalyzer.new).visitList pre with ha0
    set var : Variable :=
      { name := x
        flux_type := if tmp then .Temporal (infer_type a0 e1) else infer_type a0 e1
        is_const := true
        is_temporal := tmp
        is_frozen := false
        timeline := [(a0.timestamp, infer_type a0 e1)] } with hvar
    set a1 := { a0 with symbol_table := tableInsert a0.symbol_table x var } with ha1
    set a2 := a1.visit e1 with ha2
    set a3 : SemanticAnalyzer := { a2 with timestamp := a2.timestamp + 1 } with ha3
    have hlook1 : tableLookup a1.symbol_table x = some var :=
      tableLookup_insert_self a0.symbol_table x var hIsSome
    have hlook2 : tableLookup a2.symbol_table x = some var :=
      visit_preserves e1 a1 x var hlook1
    have hlookMid : tableLookup ((a3.visitList mid)).symbol_table x = some var :=
      visitList_preserves mid a3 x var hlook2
    have hsingle2 : (a3.visitList mid).visitList [ASTNode.Assignment x e2] =
        (a3.visitList mid).visit (ASTNode.Assignment x e2) := rfl
    rw [hsingle2]
    refine visitList_errors_mem post _ _ ?_
    simp only [SemanticAnalyzer.visit]
    rw [hlookMid]
    simp only [hvar]
    simp
  refine ⟨((SemanticAnalyzer.new).visit
      (.Program (pre ++ [.VarDecl x e1 true tmp] ++ mid ++ [.Assignment x e2] ++ post))).errors,
    ?_, key⟩
  have hne := List.ne_nil_of_mem key
  unfold SemanticAnalyzer.analyze
  rw [if_neg (by simpa using hne)]

/-- C6 counterexample: when `x` is already declared, the `const` declaration
itself fails with `Variable 'x' already declared` and the const entry is never
installed, so the subsequent assignment to the (non-const) original binding
produces no const-reassignment diagnostic — `analyze` errors, but without any
diagnostic mentioning the const reassignment. -/
theorem C6_counterexample :
    (SemanticAnalyzer.new).analyze (.Program [.VarDecl "x" (.Number 1) false false,
      .VarDecl "x" (.Number 2) true false, .Assignment "x" (.Number 3)]) =
      .error ["Variable 'x' already declared"] ∧
    "Cannot reassign to const variable 'x'" ∉ (["Variable 'x' already declared"] : List String) := by
  exact ⟨rfl, by decide⟩

/-- Witness for C6 with the two-statement program `const x = 10; x = 20`. -/
theorem C6_const_reassignment_witness :
    ∃ errs, (SemanticAnalyzer.new).analyze (.Program (([] : List ASTNode) ++
        [.VarDecl "x" (.Number 10) true false] ++ [] ++ [.Assignment "x" (.Number 20)] ++ [])) =
        .error errs ∧
      ("Cannot reassign to const variable '" ++ "x" ++ "'") ∈ errs :=
  C6_const_reassignment [] [] [] "x" (.Number 10) (.Number 20) false rfl

/-- Concrete source for the C1 counterexample: an `If` statement whose
condition the optimizer would constant-fold. -/
def srcC1 : String := "if 1 + 1 \x7b 5 \x7d"

/-- The AST `Parser::parse` produces for `srcC1`. -/
def astC1 : ASTNode := .Program [.If (.Binary (.Number 1) "+" (.Number 1)) [.Number 5] none]

/-- C1 (amended): `FluxCompiler::compile` runs four stages — lexing, parsing,
semantic analysis, code generation — and hands `CodeGenerator::generate` the
parser's output unchanged; the optimizer is never invoked. -/
theorem C1_compile_codegen_input (source : String) (ast : ASTNode)
    (hparse : Parser.parse (Lexer.tokenize (Lexer.new source)).1 = .ok ast)
    (hsem : (SemanticAnalyzer.new).analyze ast = .ok ()) :
    FluxCompiler.compile source = .ok ((CodeGenerator.new).generate ast) := by
  simp only [FluxCompiler.compile, hparse, hsem]

/-- Witness for C1 at the concrete source of `srcC1`. -/
theorem C1_compile_codegen_witness :
    FluxCompiler.compile srcC1 = .ok ((CodeGenerator.new).generate astC1) :=
  C1_compile_codegen_input srcC1 astC1 rfl rfl

set_option maxRecDepth 40000 in
/-- C1 counterexample: for the source `if 1 + 1 { 5 }` the compiler emits the
code generated from the raw parsed AST; the optimizer would have changed that
AST, and generating code from the optimized AST yields different IR — so the
AST handed to `CodeGenerator::generate` is not the optimizer's output. -/
theorem C1_counterexample :
    Parser.parse (Lexer.tokenize (Lexer.new srcC1)).1 = .ok astC1 ∧
    FluxCompiler.compile srcC1 = .ok ((CodeGenerator.new).generate astC1) ∧
    (CodeGenerator.new).generate (ASTOptimizer.optimize astC1) ≠
      (CodeGenerator.new).generate astC1 ∧
    ASTOptimizer.optimize astC1 ≠ astC1 := by
  refine ⟨rfl, rfl, by decide, ?_⟩
  show ASTNode.Program [.If (.Number 2) [.Number 5] none] ≠ astC1
  simp [astC1]

/-- C7: `ASTOptimizer::optimize` is idempotent — optimizing an already
optimized AST returns it unchanged. -/
theorem C7_optimize_idempotent (t : ASTNode) :
    ASTOptimizer.optimize (ASTOptimizer.optimize t) = ASTOptimizer.optimize t :=
  optimize_idem t

end Flux
